import Mathlib

/-!
# Battleship server: session dispatcher

A shallow embedding of `backend/main.cpp` (the WebSocket message and close
handlers together with the three global connection maps) and proofs about it.

* A connection (`crow::websocket::connection*`) is identified by a number.
* A `GameSession` lives on the heap behind a `std::shared_ptr`; the heap is a
  total map from references to sessions and `nextRef` is the next free one.
* Every handler returns the new server state together with the sequence of
  events it produced: mutex operations, sends, the call of the game engine,
  and a send through a null socket (the point where the C++ program faults).
* `types.h`, `session_manager.h`, `game_engine.h` and `json_serializer.h` are
  not among the sources; what the handlers need from them is modelled from the
  specification and marked as such.
-/

namespace Battleship

/-! ## JSON values as seen through the accessors of `crow::json::rvalue` -/

/-- A decoded JSON document. -/
inductive Json where
  | null
  | bool (b : Bool)
  | num (n : Int)
  | str (s : String)
  | list (xs : List Json)
  | obj (kvs : List (String × Json))

/-- Lookup of a key in the members of an object. -/
def Json.find : List (String × Json) → String → Option Json
  | [], _ => none
  | (k, v) :: rest, key => if k = key then some v else Json.find rest key

/-- The member test `has(key)`. -/
def Json.has (j : Json) (key : String) : Bool :=
  match j with
  | .obj kvs => (Json.find kvs key).isSome
  | _ => false

/-- The member access `json[key]`; it throws when the value is not an object
or has no such key. -/
def Json.get (j : Json) (key : String) : Except String Json :=
  match j with
  | .obj kvs =>
    match Json.find kvs key with
    | some v => .ok v
    | none => .error "cannot find key"
  | _ => .error "value is not an object"

/-- The string accessor `s()`; it throws on every other type. -/
def Json.s : Json → Except String String
  | .str s => .ok s
  | _ => .error "value is not string"

/-- The integer accessor `i()` on a number; every other type is modelled as
throwing. -/
def Json.i : Json → Except String Int
  | .num n => .ok n
  | _ => .error "value is not number"

/-- The narrowing of the 64-bit result of `i()` to a C++ `int`. -/
def toInt32 (n : Int) : Int := (n + 2147483648) % 4294967296 - 2147483648

/-! ## Data model (`types.h`) -/

/-- A connection handle: the identity of a `crow::websocket::connection`. -/
abbrev Conn := Nat

/-- A reference to a heap-allocated `GameSession`. -/
abbrev SessionRef := Nat

/-- A grid coordinate `(x, y)`. -/
abbrev Cell := Int × Int

/-- Modelled from the spec: the running statistics of a player (`types.h` is
not among the sources): shots fired, hits, misses. -/
structure Stats where
  shots : Nat
  hits : Nat
  misses : Nat
deriving DecidableEq

/-- Modelled from the spec: a ship is the ordered sequence of its cells. -/
structure Ship where
  cells : List Cell
deriving DecidableEq

/-- Modelled from the spec: a board holds the ships and the set of cells
already fired upon. -/
structure Board where
  ships : List Ship
  shotsReceived : List Cell
deriving DecidableEq

/-- Modelled from the spec: a player slot; `socket` is the nullable reference
to the live connection. -/
structure Player where
  socket : Option Conn
  id : String
  board : Board
  shipsPlaced : Bool
  stats : Stats
deriving DecidableEq

/-- The phases of a session. -/
inductive GameState where
  | WAITING_FOR_PLAYER | PLACING_SHIPS | IN_GAME | FINISHED
deriving DecidableEq

/-- The outcome of a shot. -/
inductive ShotResult where
  | MISS | HIT | SUNK | WIN
deriving DecidableEq

/-- Modelled from the spec: one match (the mutex is represented by the lock
events of the handlers). -/
structure GameSession where
  roomCode : String
  player1 : Player
  player2 : Player
  state : GameState
  currentTurn : Int
  lastActivity : Nat
deriving DecidableEq

/-- Modelled from the spec: the constructor `Player(socket, id)`: an empty
board, no ships placed, zero statistics. -/
def Player.new (socket : Option Conn) (id : String) : Player :=
  { socket := socket, id := id, board := { ships := [], shotsReceived := [] },
    shipsPlaced := false, stats := { shots := 0, hits := 0, misses := 0 } }

/-- Modelled from the spec: `getCurrentPlayer()` resolves `currentTurn` to the
corresponding player. -/
def GameSession.getCurrentPlayer (s : GameSession) : Player :=
  if s.currentTurn = 1 then s.player1 else s.player2

/-- Modelled from the spec: `getOpponent()` is the other player. -/
def GameSession.getOpponent (s : GameSession) : Player :=
  if s.currentTurn = 1 then s.player2 else s.player1

/-- The effect of `updateActivity()`: refresh the timestamp. -/
def GameSession.updateActivity (s : GameSession) (now : Nat) : GameSession :=
  { s with lastActivity := now }

/-! ## Outbound messages (`json_serializer.h`) and observable events -/

/-- The server-to-client messages built by `JsonSerializer`. -/
inductive Msg where
  | error (message : String)
  | pong
  | sessionCreated (roomCode : String)
  | gameStart (turn : Int)
  | shipsPlaced
  | bothPlayersReady
  | yourTurn
  | stateMyShot (board : Board)
  | stateEnemyShot (board : Board)
  | gameOver (winner : String) (stats : Stats)
deriving DecidableEq

/-- What one handler invocation does, in program order. -/
inductive Ev where
  | lockConn
  | unlockConn
  | lockSession (r : SessionRef)
  | unlockSession (r : SessionRef)
  | send (dest : Conn) (m : Msg)
  | nullSend (m : Msg)
  | processShot (x : Int) (y : Int)
deriving DecidableEq

/-- How the body executed under the session lock ends. -/
inductive Exit where
  | ret
  | throw (what : String)
  | fault
deriving DecidableEq

/-- Result of the part of the message handler that runs on a session. -/
structure Body where
  session : GameSession
  events : List Ev
  exit : Exit
deriving DecidableEq

/-! ## Game engine (`game_engine.h`) -/

/-- Modelled from the spec: `isSunk`: every cell of the ship has been shot. -/
def Ship.isSunk (ship : Ship) (shots : List Cell) : Bool :=
  ship.cells.all (fun c => decide (c ∈ shots))

/-- Modelled from the spec: step 1 of `processShot`: record the cell in
`shotsReceived`, a set (a cell already present is not recorded again). -/
def Board.record (board : Board) (x y : Int) : Board :=
  { board with shotsReceived :=
      if (x, y) ∈ board.shotsReceived then board.shotsReceived
      else (x, y) :: board.shotsReceived }

/-- Modelled from the spec: step 2 of `processShot`, on the board before the
shot: WIN when every ship is sunk after the shot; HIT when the cell lies in
exactly one ship and that ship is not sunk after the shot; SUNK when this shot
makes that ship sunk; MISS otherwise. -/
def GameEngine.outcome (board : Board) (x y : Int) : ShotResult :=
  let after := (board.record x y).shotsReceived
  if board.ships.all (fun sh => sh.isSunk after) then .WIN
  else
    match board.ships.filter (fun sh => decide ((x, y) ∈ sh.cells)) with
    | [sh] =>
      if !sh.isSunk after then .HIT
      else if !sh.isSunk board.shotsReceived then .SUNK
      else .MISS
    | _ => .MISS

/-- Modelled from the spec: step 3 of `processShot`: count the shot, and the hit
on HIT, SUNK and WIN (the specification names no update of `misses`). -/
def Stats.count (stats : Stats) (result : ShotResult) : Stats :=
  { stats with shots := stats.shots + 1,
               hits := if result = .MISS then stats.hits else stats.hits + 1 }

/-- Modelled from the spec: `GameEngine::processShot` (`game_engine.h` is not
among the sources): record the cell on the opponent's board, determine the
outcome, update the shooter's statistics, pass the turn on MISS only and finish
the game on WIN. -/
def GameEngine.processShot (s : GameSession) (x y : Int) : ShotResult × GameSession :=
  let result := GameEngine.outcome s.getOpponent.board x y
  let target : Player := { s.getOpponent with board := s.getOpponent.board.record x y }
  let shooter : Player := { s.getCurrentPlayer with stats := s.getCurrentPlayer.stats.count result }
  let s1 : GameSession :=
    if s.currentTurn = 1 then { s with player1 := shooter, player2 := target }
    else { s with player1 := target, player2 := shooter }
  (result,
   match result with
   | .MISS => { s1 with currentTurn := if s.currentTurn = 1 then 2 else 1 }
   | .WIN => { s1 with state := .FINISHED }
   | _ => s1)

/-! ## Server state: session manager and the global connection maps -/

/-- The inputs a handler takes from its environment: the clock and the room
code produced by the generator of `createSession`. -/
structure Env where
  now : Nat
  roomCode : String

/-- The session heap, the table of `SessionManager` and the three global maps
of `main.cpp`. A value `some none` of `connectionSessions` is an entry holding
a null `shared_ptr`. -/
structure Server where
  heap : SessionRef → GameSession
  nextRef : SessionRef
  sessionManager : String → Option SessionRef
  connectionSessions : Conn → Option (Option SessionRef)
  connectionPlayerIds : Conn → Option String
  connectionIsPlayer1 : Conn → Option Bool

/-- Assignment `m[k] = v` of an `unordered_map`. -/
def mapSet {α : Type} {β : Type} [DecidableEq α] (m : α → Option β) (k : α) (v : β) : α → Option β :=
  fun a => if a = k then some v else m a

/-- The call `m.erase(k)`. -/
def mapErase {α : Type} {β : Type} [DecidableEq α] (m : α → Option β) (k : α) : α → Option β :=
  fun a => if a = k then none else m a

/-- Writing through a session reference. -/
def heapSet (h : SessionRef → GameSession) (r : SessionRef) (s : GameSession) :
    SessionRef → GameSession :=
  fun a => if a = r then s else h a

/-- The server after a write to the session behind a reference. -/
def Server.store (st : Server) (r : SessionRef) (s : GameSession) : Server :=
  { st with heap := heapSet st.heap r s }

/-- A session nobody has touched: the content of unallocated references. -/
def GameSession.blank : GameSession :=
  { roomCode := "", player1 := Player.new none "", player2 := Player.new none "",
    state := .WAITING_FOR_PLAYER, currentTurn := 1, lastActivity := 0 }

/-- The state at process start: no sessions, no connections. -/
def Server.init : Server :=
  { heap := fun _ => GameSession.blank, nextRef := 0, sessionManager := fun _ => none,
    connectionSessions := fun _ => none, connectionPlayerIds := fun _ => none,
    connectionIsPlayer1 := fun _ => none }

/-- Modelled from the spec: `SessionManager::createSession` (`session_manager.h`
is not among the sources): store a new session in state `WAITING_FOR_PLAYER`
with player1 bound, `currentTurn = 1`, `lastActivity = now`, under the room code
the generator delivers, and return the code. -/
def SessionManager.createSession (st : Server) (player1 : Player) (env : Env) : String × Server :=
  let s : GameSession :=
    { roomCode := env.roomCode, player1 := player1, player2 := Player.new none "",
      state := .WAITING_FOR_PLAYER, currentTurn := 1, lastActivity := env.now }
  (env.roomCode,
   { st with heap := heapSet st.heap st.nextRef s, nextRef := st.nextRef + 1,
             sessionManager := mapSet st.sessionManager env.roomCode st.nextRef })

/-- Modelled from the spec: `SessionManager::getSession`: table lookup. -/
def SessionManager.getSession (st : Server) (roomCode : String) : Option SessionRef :=
  st.sessionManager roomCode

/-- Modelled from the spec: the stores of a successful join: player2 is bound,
the state becomes `PLACING_SHIPS` and `lastActivity` is refreshed. -/
def GameSession.join (s : GameSession) (player2 : Player) (now : Nat) : GameSession :=
  { s with player2 := player2, state := .PLACING_SHIPS, lastActivity := now }

/-- Modelled from the spec: `SessionManager::joinSession`: rejected when the
room code is unknown or the session already has two players (player2 has joined,
that is the session has left `WAITING_FOR_PLAYER`); otherwise binds player2,
moves to `PLACING_SHIPS` and refreshes `lastActivity`. -/
def SessionManager.joinSession (st : Server) (roomCode : String) (player2 : Player) (env : Env) :
    Option SessionRef × Server :=
  match st.sessionManager roomCode with
  | none => (none, st)
  | some r =>
    let s := st.heap r
    if s.state ≠ .WAITING_FOR_PLAYER then (none, st)
    else
      (some r, st.store r (s.join player2 env.now))

/-! ## The handlers of `main.cpp` -/

/-- Outcome of the ship-parsing loops: the parsed value, an error reply
followed by `return`, or an exception of a JSON accessor. -/
inductive Parse (α : Type) where
  | ok (a : α)
  | reject (message : String)
  | throw (what : String)

/-- Body of the inner loop: one cell must be a list of two elements,
read with `i()` into two `int`s. -/
def parseCell (cellJson : Json) : Parse Cell :=
  match cellJson with
  | .list [a, b] =>
    match a.i with
    | .error w => .throw w
    | .ok x =>
      match b.i with
      | .error w => .throw w
      | .ok y => .ok (toInt32 x, toInt32 y)
  | _ => .reject "Координата должна быть массивом из 2 элементов"

/-- The inner loop over the cells of one ship. -/
def parseCells : List Json → Parse (List Cell)
  | [] => .ok []
  | cellJson :: rest =>
    match parseCell cellJson with
    | .reject m => .reject m
    | .throw w => .throw w
    | .ok c =>
      match parseCells rest with
      | .reject m => .reject m
      | .throw w => .throw w
      | .ok cs => .ok (c :: cs)

/-- The outer loop over the ships: each must be a list. -/
def parseShips : List Json → Parse (List (List Cell))
  | [] => .ok []
  | shipJson :: rest =>
    match shipJson with
    | .list cells =>
      match parseCells cells with
      | .reject m => .reject m
      | .throw w => .throw w
      | .ok ship =>
        match parseShips rest with
        | .reject m => .reject m
        | .throw w => .throw w
        | .ok ships => .ok (ship :: ships)
    | _ => .reject "Корабль должен быть массивом координат"

/-- A run of unguarded `socket->send_text(...)` calls: the first null socket
faults and nothing after it is executed. -/
def sendAll : List (Option Conn × Msg) → List Ev × Exit
  | [] => ([], .ret)
  | (some c, m) :: rest => (Ev.send c m :: (sendAll rest).1, (sendAll rest).2)
  | (none, m) :: _ => ([Ev.nullSend m], .fault)

/-- A guarded send `if (socket) socket->send_text(...)`. -/
def sendIf (socket : Option Conn) (m : Msg) : List Ev :=
  match socket with
  | some c => [Ev.send c m]
  | none => []

/-- The stores of the `PLACE_SHIPS` branch: the sender's ships are replaced
by the parsed ones and its flag is set. -/
def GameSession.place (s : GameSession) (isPlayer1 : Bool) (ships : List (List Cell)) :
    GameSession :=
  if isPlayer1 then
    { s with player1 :=
        { s.player1 with board := { s.player1.board with ships := ships.map Ship.mk },
                         shipsPlaced := true } }
  else
    { s with player2 :=
        { s.player2 with board := { s.player2.board with ships := ships.map Ship.mk },
                         shipsPlaced := true } }

/-- The end of the `PLACE_SHIPS` branch, after the parse: store the ships, set
the flag, confirm, and start the game when both players are ready. -/
def storeShips (s : GameSession) (conn : Conn) (isPlayer1 : Bool) (ships : List (List Cell)) :
    Body :=
  let s1 := s.place isPlayer1 ships
  if s1.player1.shipsPlaced && s1.player2.shipsPlaced then
    let s2 : GameSession := { s1 with state := .IN_GAME }
    let r := sendAll
      [(s2.player1.socket, .bothPlayersReady),
       (s2.player2.socket, .bothPlayersReady),
       (if s2.currentTurn = 1 then s2.player1.socket else s2.player2.socket, .yourTurn)]
    ⟨s2, Ev.send conn .shipsPlaced :: r.1, r.2⟩
  else
    ⟨s1, [Ev.send conn .shipsPlaced], .ret⟩

/-- The `PLACE_SHIPS` branch of `handleWebSocketMessage`, run under the session
lock. -/
def placeShips (s : GameSession) (conn : Conn) (isPlayer1 : Bool) (json : Json) : Body :=
  let player := if isPlayer1 then s.player1 else s.player2
  if player.shipsPlaced then
    ⟨s, [Ev.send conn (.error "Корабли уже расставлены")], .ret⟩
  else if s.state ≠ .PLACING_SHIPS then
    ⟨s, [Ev.send conn (.error "Неверное состояние игры")], .ret⟩
  else if !json.has "ships" then
    ⟨s, [Ev.send conn (.error "Отсутствует поле 'ships'")], .ret⟩
  else
    match json.get "ships" with
    | .error w => ⟨s, [], .throw w⟩
    | .ok (.list shipsJson) =>
      match parseShips shipsJson with
      | .reject m => ⟨s, [Ev.send conn (.error m)], .ret⟩
      | .throw w => ⟨s, [], .throw w⟩
      | .ok ships => storeShips s conn isPlayer1 ships
    | .ok _ => ⟨s, [Ev.send conn (.error "Поле 'ships' должно быть массивом")], .ret⟩

/-- The end of the `SHOT` branch, after the guards and the reading of the
coordinates: process the shot and notify. -/
def fire (s : GameSession) (conn : Conn) (isPlayer1 : Bool) (x y : Int) (now : Nat) : Body :=
  let r := GameEngine.processShot s x y
  let s1 := r.2
  -- `target` was bound to the opponent slot before `processShot` ran
  let target := if s.currentTurn = 1 then s1.player2 else s1.player1
  let evs : List Ev :=
    [Ev.processShot x y, Ev.send conn (.stateMyShot target.board)]
      ++ sendIf target.socket (.stateEnemyShot target.board)
  if r.1 = .WIN then
    let winner := if isPlayer1 then "player1" else "player2"
    match s1.player1.socket with
    | none => ⟨s1, evs ++ [Ev.nullSend (.gameOver winner s1.player1.stats)], .fault⟩
    | some p1 =>
      ⟨s1.updateActivity now,
       evs ++ [Ev.send p1 (.gameOver winner s1.player1.stats)]
         ++ sendIf s1.player2.socket (.gameOver winner s1.player2.stats), .ret⟩
  else
    ⟨s1.updateActivity now, evs ++ sendIf s1.getCurrentPlayer.socket .yourTurn, .ret⟩

/-- The `SHOT` branch of `handleWebSocketMessage`, run under the session
lock. -/
def shot (s : GameSession) (conn : Conn) (isPlayer1 : Bool) (json : Json) (now : Nat) : Body :=
  if s.state ≠ .IN_GAME then
    ⟨s, [Ev.send conn (.error "Игра еще не началась")], .ret⟩
  else if s.getCurrentPlayer.socket ≠ some conn then
    ⟨s, [Ev.send conn (.error "Не ваш ход")], .ret⟩
  else if !json.has "x" || !json.has "y" then
    ⟨s, [Ev.send conn (.error "Отсутствуют координаты x или y")], .ret⟩
  else
    match (json.get "x").bind Json.i with
    | .error w => ⟨s, [], .throw w⟩
    | .ok x =>
      match (json.get "y").bind Json.i with
      | .error w => ⟨s, [], .throw w⟩
      | .ok y => fire s conn isPlayer1 (toInt32 x) (toInt32 y) now

/-- The text of the reply sent by the `catch` block. -/
def caught (what : String) : Msg := .error ("Ошибка обработки сообщения: " ++ what)

/-- How the handler is left after the body under the session lock: on `return`
both guards release their mutex; an exception unwinds them and the `catch`
block then replies; after a fault nothing more is executed. -/
def leave (conn : Conn) (r : SessionRef) : Exit → List Ev
  | .ret => [Ev.unlockSession r, Ev.unlockConn]
  | .throw w => [Ev.unlockSession r, Ev.unlockConn, Ev.send conn (caught w)]
  | .fault => []

/-- The three stores into the global maps that bind a connection to a session
and a role. -/
def Server.bind (st : Server) (conn : Conn) (session : Option SessionRef) (playerId : String)
    (isPlayer1 : Bool) : Server :=
  { st with connectionSessions := mapSet st.connectionSessions conn session,
            connectionPlayerIds := mapSet st.connectionPlayerIds conn playerId,
            connectionIsPlayer1 := mapSet st.connectionIsPlayer1 conn isPlayer1 }

/-- The lookups at the top of the handler. `connectionIsPlayer1[&conn]` creates
a `false` entry when there is none. -/
def lookup (st : Server) (conn : Conn) : Option SessionRef × Bool × Server :=
  match st.connectionSessions conn with
  | none => (none, false, st)
  | some cur =>
    match st.connectionIsPlayer1 conn with
    | some b => (cur, b, st)
    | none => (cur, false, { st with connectionIsPlayer1 := mapSet st.connectionIsPlayer1 conn false })

/-- The function `handleWebSocketMessage(conn, data, is_binary)`; `data` is the
result of `crow::json::load` (`none` for text that is not JSON). -/
def handleWebSocketMessage (st : Server) (conn : Conn) (data : Option Json) (is_binary : Bool)
    (env : Env) : Server × List Ev :=
  if is_binary then
    (st, [Ev.send conn (.error "Бинарные сообщения не поддерживаются")])
  else
    match data with
    | none => (st, [Ev.send conn (.error "Неверный формат JSON")])
    | some json =>
      match (json.get "type").bind Json.s with
      | .error w => (st, [Ev.send conn (caught w)])
      | .ok type =>
        if type = "PING" then (st, [Ev.send conn .pong])
        else
          let found := lookup st conn
          let currentSession := found.1
          let isPlayer1 := found.2.1
          let st0 := found.2.2
          if type = "CREATE_SESSION" then
            let created := SessionManager.createSession st0 (Player.new (some conn) "player1") env
            let roomCode := created.1
            let st1 := created.2
            let newSession := SessionManager.getSession st1 roomCode
            (st1.bind conn newSession "player1" true,
             [Ev.lockConn, Ev.unlockConn, Ev.send conn (.sessionCreated roomCode)])
          else if type = "JOIN_SESSION" then
            if !json.has "roomCode" then
              (st0, [Ev.lockConn, Ev.unlockConn, Ev.send conn (.error "Отсутствует поле 'roomCode'")])
            else
              match (json.get "roomCode").bind Json.s with
              | .error w => (st0, [Ev.lockConn, Ev.unlockConn, Ev.send conn (caught w)])
              | .ok roomCode =>
                let joined := SessionManager.joinSession st0 roomCode (Player.new (some conn) "player2") env
                match joined.1 with
                | none =>
                  (joined.2, [Ev.lockConn, Ev.unlockConn,
                    Ev.send conn (.error "Комната не найдена или уже заполнена")])
                | some r =>
                  let st1 := joined.2
                  let player1Socket := (st1.heap r).player1.socket
                  let player2Socket := (st1.heap r).player2.socket
                  (st1.bind conn (some r) "player2" false,
                   [Ev.lockConn, Ev.lockSession r, Ev.unlockSession r, Ev.unlockConn]
                     ++ sendIf player1Socket (.gameStart 1) ++ sendIf player2Socket (.gameStart 1))
          else
            match currentSession with
            | none => (st0, [Ev.lockConn, Ev.unlockConn, Ev.send conn (.error "Сессия не найдена")])
            | some r =>
              let body : Body :=
                if type = "PLACE_SHIPS" then placeShips (st0.heap r) conn isPlayer1 json
                else if type = "SHOT" then shot (st0.heap r) conn isPlayer1 json env.now
                else ⟨st0.heap r, [Ev.send conn (.error ("Неизвестный тип сообщения: " ++ type))], .ret⟩
              (st0.store r body.session,
               [Ev.lockConn, Ev.lockSession r] ++ body.events ++ leave conn r body.exit)

/-- The store of the close handler into the session: the socket of the closing
player becomes null; the `Player` itself and everything else stay. -/
def GameSession.unplug (s : GameSession) (isPlayer1 : Bool) : GameSession :=
  if isPlayer1 then { s with player1 := { s.player1 with socket := none } }
  else { s with player2 := { s.player2 with socket := none } }

/-- The function `handleWebSocketClose(conn, reason, code)`. -/
def handleWebSocketClose (st : Server) (conn : Conn) : Server × List Ev :=
  match st.connectionSessions conn with
  | none => (st, [Ev.lockConn, Ev.unlockConn])
  | some none =>
    ({ st with connectionSessions := mapErase st.connectionSessions conn,
               connectionPlayerIds := mapErase st.connectionPlayerIds conn,
               connectionIsPlayer1 := mapErase st.connectionIsPlayer1 conn },
     [Ev.lockConn, Ev.unlockConn])
  | some (some r) =>
    let isPlayer1 := (st.connectionIsPlayer1 conn).getD false
    let s1 := (st.heap r).unplug isPlayer1
    let other := if isPlayer1 then s1.player2.socket else s1.player1.socket
    ({ st with heap := heapSet st.heap r s1,
               connectionSessions := mapErase st.connectionSessions conn,
               connectionPlayerIds := mapErase st.connectionPlayerIds conn,
               connectionIsPlayer1 := mapErase st.connectionIsPlayer1 conn },
     [Ev.lockConn, Ev.lockSession r] ++ sendIf other (.error "Противник отключился")
       ++ [Ev.unlockSession r, Ev.unlockConn])

/-- What the transport delivers: a frame on a connection, or its close. -/
inductive Event where
  | message (conn : Conn) (data : Option Json) (is_binary : Bool) (env : Env)
  | close (conn : Conn)

/-- One callback of the transport. -/
def step (st : Server) (e : Event) : Server × List Ev :=
  match e with
  | .message conn data is_binary env => handleWebSocketMessage st conn data is_binary env
  | .close conn => handleWebSocketClose st conn

/-- The callbacks of a whole sequence, from a given state: the final state and
the events of every invocation. -/
def run : Server → List Event → Server × List (List Ev)
  | st, [] => (st, [])
  | st, e :: es => ((run (step st e).1 es).1, (step st e).2 :: (run (step st e).1 es).2)

/-! ## Observations on the events of an invocation -/

/-- The messages sent by an invocation, in order, with their destinations. -/
def sends : List Ev → List (Conn × Msg)
  | [] => []
  | .send c m :: rest => (c, m) :: sends rest
  | _ :: rest => sends rest

/-- Whether an invocation sent through a null socket. -/
def faults : List Ev → Bool
  | [] => false
  | .nullSend _ :: _ => true
  | _ :: rest => faults rest

/-- Whether an invocation called `GameEngine::processShot`. -/
def processed : List Ev → Bool
  | [] => false
  | .processShot _ _ :: _ => true
  | _ :: rest => processed rest

/-- The role the handlers read for a connection from `connectionIsPlayer1`
(`operator[]` yields `false` when there is no entry). -/
def roleOf (st : Server) (conn : Conn) : Bool := (st.connectionIsPlayer1 conn).getD false

/-- The player slot of a role. -/
def GameSession.slot (s : GameSession) (isPlayer1 : Bool) : Player :=
  if isPlayer1 then s.player1 else s.player2

/-- The guard of `SHOT` in the words of the specification: the game is running,
the connection is the one of the player whose turn it is, and both coordinates
are present. -/
def shotAllowed (s : GameSession) (conn : Conn) (json : Json) : Prop :=
  s.state = .IN_GAME ∧ s.getCurrentPlayer.socket = some conn ∧
    json.has "x" = true ∧ json.has "y" = true

/-- Shape of one coordinate: a list of two elements. -/
def isCellShape : Json → Bool
  | .list [_, _] => true
  | _ => false

/-- Shape of one ship: a list of coordinates. -/
def isShipShape : Json → Bool
  | .list cells => cells.all isCellShape
  | _ => false

/-- The field `ships` is present and is a list of lists of 2-element lists. -/
def shipsShape (json : Json) : Bool :=
  match json.get "ships" with
  | .ok (.list ships) => ships.all isShipShape
  | _ => false

/-- The guard of `PLACE_SHIPS` in the words of the specification. -/
def placeAllowed (s : GameSession) (isPlayer1 : Bool) (json : Json) : Prop :=
  s.state = .PLACING_SHIPS ∧ (s.slot isPlayer1).shipsPlaced = false ∧ shipsShape json = true

instance (s : GameSession) (conn : Conn) (json : Json) : Decidable (shotAllowed s conn json) := by
  unfold shotAllowed
  infer_instance

instance (s : GameSession) (isPlayer1 : Bool) (json : Json) :
    Decidable (placeAllowed s isPlayer1 json) := by
  unfold placeAllowed
  infer_instance

/-- A body that was turned away: the session is as before and the only reply
is one error, sent directly or by the `catch` block. -/
def Body.Rejected (b : Body) (s : GameSession) (conn : Conn) : Prop :=
  b.session = s ∧
    ((∃ m, b.events = [Ev.send conn (.error m)] ∧ b.exit = .ret) ∨
     (b.events = [] ∧ ∃ w, b.exit = .throw w))

/-! ## Concrete scenarios -/

/-- The environment of the scenarios: the clock reading and room code ABC123. -/
def envAt (now : Nat) : Env := ⟨now, "ABC123"⟩

/-- A text frame holding an object with the given type and fields. -/
def frame (type : String) (fields : List (String × Json)) : Option Json :=
  some (.obj (("type", .str type) :: fields))

/-- The JSON of ships given by integer coordinates. -/
def shipsJson (ships : List (List Cell)) : Json :=
  .list (ships.map fun sh => .list (sh.map fun c => .list [.num c.1, .num c.2]))

/-- A `PLACE_SHIPS` frame. -/
def placeFrame (ships : List (List Cell)) : Option Json :=
  frame "PLACE_SHIPS" [("ships", shipsJson ships)]

/-- A `SHOT` frame. -/
def shotFrame (x y : Int) : Option Json :=
  frame "SHOT" [("x", .num x), ("y", .num y)]

/-- Connection 1 creates room ABC123 and connection 2 joins it. -/
def joined : List Event :=
  [.message 1 (frame "CREATE_SESSION" []) false (envAt 0),
   .message 2 (frame "JOIN_SESSION" [("roomCode", .str "ABC123")]) false (envAt 1)]

/-- Both then place a one-cell ship: player1 at (0,0), player2 at (5,5). -/
def ready : List Event :=
  joined ++
  [.message 1 (placeFrame [[(0, 0)]]) false (envAt 2),
   .message 2 (placeFrame [[(5, 5)]]) false (envAt 3)]

/-! ## Notions used in the statements -/

/-- A cell of the 10 by 10 grid. -/
def inGrid (c : Cell) : Prop := 0 ≤ c.1 ∧ c.1 < 10 ∧ 0 ≤ c.2 ∧ c.2 < 10

instance (c : Cell) : Decidable (inGrid c) := by
  unfold inGrid
  infer_instance

/-- The coordinates as stored: both narrowed to `int`. -/
def narrow (c : Cell) : Cell := (toInt32 c.1, toInt32 c.2)

/-- The slot of the shooter, the player designated by `currentTurn`. -/
def GameSession.turnIsPlayer1 (s : GameSession) : Bool := decide (s.currentTurn = 1)

/-- Whether an invocation sent an error message. -/
def errors : List Ev → Bool
  | [] => false
  | .send _ (.error _) :: _ => true
  | _ :: rest => errors rest

/-- Both players are ready; player1 misses at (3,3), then player2 misses at
(1,1), so that it is player1's turn again. -/
def volley : List Event :=
  ready ++
  [.message 1 (shotFrame 3 3) false (envAt 4),
   .message 2 (shotFrame 1 1) false (envAt 5)]

/-- Player2 places and disconnects; player1 then places the second fleet. -/
def placeAfterLoss : List Event :=
  joined ++
  [.message 2 (placeFrame [[(5, 5)]]) false (envAt 2),
   .close 2,
   .message 1 (placeFrame [[(0, 0)]]) false (envAt 3)]

/-- Player1 misses and disconnects; player2 then sinks player1's only ship. -/
def winAfterLoss : List Event :=
  ready ++
  [.message 1 (shotFrame 3 3) false (envAt 4),
   .close 1,
   .message 2 (shotFrame 0 0) false (envAt 5)]

/-- Connection 1 creates a room, creates a second one, and closes. -/
def createTwice : List Event :=
  [.message 1 (frame "CREATE_SESSION" []) false ⟨0, "ABC123"⟩,
   .message 1 (frame "CREATE_SESSION" []) false ⟨1, "XYZ789"⟩,
   .close 1]

/-- Connection 1 creates a room, joins it itself, and closes. -/
def joinOwn : List Event :=
  [.message 1 (frame "CREATE_SESSION" []) false (envAt 0),
   .message 1 (frame "JOIN_SESSION" [("roomCode", .str "ABC123")]) false (envAt 1),
   .close 1]

/-- Whether every send of an invocation happens while it holds no mutex;
`held` counts the mutexes held so far. -/
def sendsUnlocked : List Ev → Nat → Bool
  | [], _ => true
  | .lockConn :: rest, held => sendsUnlocked rest (held + 1)
  | .lockSession _ :: rest, held => sendsUnlocked rest (held + 1)
  | .unlockConn :: rest, held => sendsUnlocked rest (held - 1)
  | .unlockSession _ :: rest, held => sendsUnlocked rest (held - 1)
  | .send _ _ :: rest, held => held == 0 && sendsUnlocked rest held
  | .nullSend _ :: rest, held => held == 0 && sendsUnlocked rest held
  | .processShot _ _ :: rest, held => sendsUnlocked rest held

/-- The order of the phases of a session. -/
def GameState.rank : GameState → Nat
  | .WAITING_FOR_PLAYER => 0
  | .PLACING_SHIPS => 1
  | .IN_GAME => 2
  | .FINISHED => 3

/-- The placement flags fit the phase: nothing is placed while waiting for the
second player, and both fleets are placed once the game runs or is over. -/
def SessionOk (s : GameSession) : Prop :=
  (s.state = .WAITING_FOR_PLAYER → s.player1.shipsPlaced = false) ∧
  (s.state = .IN_GAME ∨ s.state = .FINISHED →
    s.player1.shipsPlaced = true ∧ s.player2.shipsPlaced = true)

/-- What a message of a bound connection with role `b` may do to its session. -/
structure SessionUpdate (s s1 : GameSession) (b : Bool) : Prop where
  socket1 : s1.player1.socket = s.player1.socket
  socket2 : s1.player2.socket = s.player2.socket
  waiting : s.state = .WAITING_FOR_PLAYER → s1 = s
  ok : SessionOk s → SessionOk s1
  quiet : b = false → s.state = .PLACING_SHIPS → s.player1.shipsPlaced = false →
    s1.state = .PLACING_SHIPS ∧ s1.player1.shipsPlaced = false
  rank : s.state.rank ≤ s1.state.rank

/-- The states reachable from process start by callbacks of the transport. -/
inductive Reachable : Server → Prop
  | init : Reachable Server.init
  | next (st : Server) (e : Event) : Reachable st → Reachable (step st e).1

/-- The consistency of the connection maps with the sessions. -/
structure Inv (st : Server) : Prop where
  fresh : ∀ r, st.nextRef ≤ r → st.heap r = GameSession.blank
  table : ∀ code r, st.sessionManager code = some r → r < st.nextRef
  bound : ∀ c r, st.connectionSessions c = some (some r) → r < st.nextRef
  asPlayer1 : ∀ c r, st.connectionSessions c = some (some r) → roleOf st c = true →
    (st.heap r).player1.socket = some c ∧ (st.heap r).player2.socket ≠ some c
  asPlayer2 : ∀ c r, st.connectionSessions c = some (some r) → roleOf st c = false →
    (st.heap r).player2.socket = some c ∧ (st.heap r).state ≠ .WAITING_FOR_PLAYER ∧
    ((st.heap r).player1.socket = some c →
      (st.heap r).player1.shipsPlaced = false ∧ (st.heap r).state = .PLACING_SHIPS)
  ok : ∀ r, SessionOk (st.heap r)

/-- No session moves back to an earlier phase. -/
def Mono (st st1 : Server) : Prop :=
  ∀ r, (st.heap r).state.rank ≤ (st1.heap r).state.rank

/-- How often session `r` enters `IN_GAME` along a sequence of callbacks. -/
def entries (r : SessionRef) : Server → List Event → Nat
  | _, [] => 0
  | st, e :: es =>
    (if (st.heap r).state ≠ .IN_GAME ∧ ((step st e).1.heap r).state = .IN_GAME then 1 else 0)
      + entries r (step st e).1 es

/-- The game-over messages among the messages sent. -/
def gameOvers : List (Conn × Msg) → List (Conn × Msg)
  | [] => []
  | (c, .gameOver w stats) :: rest => (c, .gameOver w stats) :: gameOvers rest
  | _ :: rest => gameOvers rest

/-- The name of a role as the handler writes it into game-over. -/
def roleName (isPlayer1 : Bool) : String := if isPlayer1 then "player1" else "player2"

/-- The game-over messages that follow a win: one through player1's socket with
player1's statistics, then one through player2's socket, when it is not null,
with player2's statistics; none when player1's socket is null. -/
def gameOversOf (s : GameSession) (winner : String) : List (Conn × Msg) :=
  match s.player1.socket with
  | none => []
  | some p1 =>
    (p1, .gameOver winner s.player1.stats) ::
      (match s.player2.socket with
       | some p2 => [(p2, .gameOver winner s.player2.stats)]
       | none => [])

/-! # Proofs -/

/-! ## Basic facts -/

theorem heapSet_same (h : SessionRef → GameSession) (r : SessionRef) : heapSet h r (h r) = h := by
  funext a
  unfold heapSet
  split
  · next e => rw [e]
  · rfl

theorem sends_append (a b : List Ev) : sends (a ++ b) = sends a ++ sends b := by
  induction a with
  | nil => rfl
  | cons e rest ih => cases e <;> simp [sends, ih]

theorem processed_append (a b : List Ev) : processed (a ++ b) = (processed a || processed b) := by
  induction a with
  | nil => rfl
  | cons e rest ih => cases e <;> simp [processed, ih]

theorem lookup_bound (st : Server) (conn : Conn) (r : SessionRef)
    (hb : st.connectionSessions conn = some (some r)) :
    (lookup st conn).1 = some r ∧ (lookup st conn).2.1 = roleOf st conn ∧
      (lookup st conn).2.2.heap = st.heap := by
  unfold lookup roleOf
  rw [hb]
  cases h : st.connectionIsPlayer1 conn <;> simp

/-- The handler on a `SHOT` frame of a bound connection. -/
theorem handle_shot (st : Server) (conn : Conn) (json : Json) (env : Env) (r : SessionRef)
    (ht : (json.get "type").bind Json.s = .ok "SHOT")
    (hb : st.connectionSessions conn = some (some r)) :
    handleWebSocketMessage st conn (some json) false env =
      ({ (lookup st conn).2.2 with
          heap := heapSet st.heap r (shot (st.heap r) conn (roleOf st conn) json env.now).session },
       [Ev.lockConn, Ev.lockSession r]
         ++ (shot (st.heap r) conn (roleOf st conn) json env.now).events
         ++ leave conn r (shot (st.heap r) conn (roleOf st conn) json env.now).exit) := by
  obtain ⟨h1, h2, h3⟩ := lookup_bound st conn r hb
  unfold handleWebSocketMessage Server.store
  simp only [ht, h1, h2, h3]
  simp

/-- The handler on a `PLACE_SHIPS` frame of a bound connection. -/
theorem handle_placeShips (st : Server) (conn : Conn) (json : Json) (env : Env) (r : SessionRef)
    (ht : (json.get "type").bind Json.s = .ok "PLACE_SHIPS")
    (hb : st.connectionSessions conn = some (some r)) :
    handleWebSocketMessage st conn (some json) false env =
      ({ (lookup st conn).2.2 with
          heap := heapSet st.heap r (placeShips (st.heap r) conn (roleOf st conn) json).session },
       [Ev.lockConn, Ev.lockSession r]
         ++ (placeShips (st.heap r) conn (roleOf st conn) json).events
         ++ leave conn r (placeShips (st.heap r) conn (roleOf st conn) json).exit) := by
  obtain ⟨h1, h2, h3⟩ := lookup_bound st conn r hb
  unfold handleWebSocketMessage Server.store
  simp only [ht, h1, h2, h3]
  simp

theorem rejected_events (b : Body) (s : GameSession) (conn : Conn) (r : SessionRef)
    (h : b.Rejected s conn) :
    (∃ m, sends ([Ev.lockConn, Ev.lockSession r] ++ b.events ++ leave conn r b.exit)
        = [(conn, .error m)]) ∧
    faults ([Ev.lockConn, Ev.lockSession r] ++ b.events ++ leave conn r b.exit) = false ∧
    processed ([Ev.lockConn, Ev.lockSession r] ++ b.events ++ leave conn r b.exit) = false := by
  obtain ⟨_, h | h⟩ := h
  · obtain ⟨m, he, hx⟩ := h
    rw [he, hx]
    exact ⟨⟨m, rfl⟩, rfl, rfl⟩
  · obtain ⟨he, w, hx⟩ := h
    rw [he, hx]
    exact ⟨⟨_, rfl⟩, rfl, rfl⟩

/-! ## The guards of `SHOT` -/

theorem shot_reject (s : GameSession) (conn : Conn) (b : Bool) (json : Json) (now : Nat)
    (h : ¬ shotAllowed s conn json) :
    (shot s conn b json now).Rejected s conn := by
  unfold Body.Rejected shot
  by_cases h1 : s.state = .IN_GAME
  · by_cases h2 : s.getCurrentPlayer.socket = some conn
    · have h3 : ¬ (json.has "x" = true ∧ json.has "y" = true) := fun h3 => h ⟨h1, h2, h3.1, h3.2⟩
      have h4 : (!json.has "x" || !json.has "y") = true := by
        cases hx : json.has "x" <;> cases hy : json.has "y" <;> simp_all
      simp [h1, h2, h4]
    · simp [h1, h2]
  · simp [h1]

/-- A `SHOT` that does not meet the guard is answered with one error, does not
reach the engine and leaves every session as it was. -/
theorem shot_turned_away (st : Server) (conn : Conn) (json : Json) (env : Env) (r : SessionRef)
    (ht : (json.get "type").bind Json.s = .ok "SHOT")
    (hb : st.connectionSessions conn = some (some r))
    (h : ¬ shotAllowed (st.heap r) conn json) :
    (∃ m, sends (handleWebSocketMessage st conn (some json) false env).2
        = [(conn, .error m)]) ∧
    faults (handleWebSocketMessage st conn (some json) false env).2 = false ∧
    processed (handleWebSocketMessage st conn (some json) false env).2 = false ∧
    (handleWebSocketMessage st conn (some json) false env).1.heap = st.heap := by
  have hr := shot_reject (st.heap r) conn (roleOf st conn) json env.now h
  obtain ⟨e1, e2, e3⟩ := rejected_events _ _ conn r hr
  rw [handle_shot st conn json env r ht hb]
  refine ⟨e1, e2, e3, ?_⟩
  show heapSet st.heap r _ = st.heap
  rw [hr.1, heapSet_same]

/-- C2: a `SHOT` from a connection bound to a session reaches
`GameEngine::processShot` only if the session is `IN_GAME`, the socket of the
player designated by `currentTurn` is this connection, and `x` and `y` are both
present; in every other case exactly one message is sent, an error to this
connection, nothing faults, and every session (state, turn, boards, statistics,
flags, `lastActivity`) is as before. -/
theorem shot_guarded (st : Server) (conn : Conn) (json : Json) (env : Env) (r : SessionRef)
    (ht : (json.get "type").bind Json.s = .ok "SHOT")
    (hb : st.connectionSessions conn = some (some r)) :
    (processed (handleWebSocketMessage st conn (some json) false env).2 = true →
        shotAllowed (st.heap r) conn json) ∧
    (¬ shotAllowed (st.heap r) conn json →
        (∃ m, sends (handleWebSocketMessage st conn (some json) false env).2
            = [(conn, .error m)]) ∧
        faults (handleWebSocketMessage st conn (some json) false env).2 = false ∧
        processed (handleWebSocketMessage st conn (some json) false env).2 = false ∧
        (handleWebSocketMessage st conn (some json) false env).1.heap = st.heap) := by
  refine ⟨fun hp => ?_, shot_turned_away st conn json env r ht hb⟩
  by_contra hn
  rw [(shot_turned_away st conn json env r ht hb hn).2.2.1] at hp
  cases hp

/-- Witness of C2: after both players are ready, player2 shoots out of turn. -/
theorem shot_guarded_witness :
    (∃ m, sends (handleWebSocketMessage (run Server.init ready).1 2
        (some (.obj [("type", .str "SHOT"), ("x", .num 0), ("y", .num 0)])) false (envAt 4)).2
          = [(2, .error m)]) ∧
    faults (handleWebSocketMessage (run Server.init ready).1 2
        (some (.obj [("type", .str "SHOT"), ("x", .num 0), ("y", .num 0)])) false (envAt 4)).2
          = false ∧
    processed (handleWebSocketMessage (run Server.init ready).1 2
        (some (.obj [("type", .str "SHOT"), ("x", .num 0), ("y", .num 0)])) false (envAt 4)).2
          = false ∧
    (handleWebSocketMessage (run Server.init ready).1 2
        (some (.obj [("type", .str "SHOT"), ("x", .num 0), ("y", .num 0)])) false (envAt 4)).1.heap
          = (run Server.init ready).1.heap :=
  (shot_guarded (run Server.init ready).1 2
    (.obj [("type", .str "SHOT"), ("x", .num 0), ("y", .num 0)]) (envAt 4) 0
    rfl (by decide)).2 (by decide)

/-! ## The guards of `PLACE_SHIPS` and what is stored -/

theorem parseCell_ok (j : Json) (c : Cell) (h : parseCell j = .ok c) : isCellShape j = true := by
  unfold parseCell at h
  split at h
  · rfl
  · cases h

theorem parseCells_ok (js : List Json) (cs : List Cell) (h : parseCells js = .ok cs) :
    js.all isCellShape = true := by
  induction js generalizing cs with
  | nil => rfl
  | cons j rest ih =>
    unfold parseCells at h
    cases hc : parseCell j with
    | reject m => rw [hc] at h; cases h
    | throw w => rw [hc] at h; cases h
    | ok c =>
      rw [hc] at h
      cases hr : parseCells rest with
      | reject m => rw [hr] at h; cases h
      | throw w => rw [hr] at h; cases h
      | ok cs1 =>
        simp [List.all_cons, parseCell_ok j c hc, ih cs1 hr]

theorem parseShips_ok (js : List Json) (ships : List (List Cell)) (h : parseShips js = .ok ships) :
    js.all isShipShape = true := by
  induction js generalizing ships with
  | nil => rfl
  | cons j rest ih =>
    unfold parseShips at h
    split at h
    · next cells =>
      cases hc : parseCells cells with
      | reject m => rw [hc] at h; cases h
      | throw w => rw [hc] at h; cases h
      | ok c =>
        rw [hc] at h
        cases hr : parseShips rest with
        | reject m => rw [hr] at h; cases h
        | throw w => rw [hr] at h; cases h
        | ok cs1 =>
          simp [List.all_cons, isShipShape, parseCells_ok cells c hc, ih cs1 hr]
    · cases h

theorem placeShips_reject (s : GameSession) (conn : Conn) (b : Bool) (json : Json)
    (h : ¬ placeAllowed s b json) :
    (placeShips s conn b json).Rejected s conn := by
  unfold Body.Rejected placeShips
  by_cases h1 : (if b = true then s.player1 else s.player2).shipsPlaced = true
  · simp [h1]
  · by_cases h2 : s.state = .PLACING_SHIPS
    · by_cases h3 : json.has "ships" = true
      · simp only [h1, h2, h3]
        cases hg : json.get "ships" with
        | error w => simp
        | ok v =>
          cases v with
          | list shipsJson =>
            cases hp : parseShips shipsJson with
            | reject m => simp [hp]
            | throw w => simp [hp]
            | ok ships =>
              exfalso
              apply h
              refine ⟨h2, ?_, ?_⟩
              · simpa [GameSession.slot] using h1
              · simp [shipsShape, hg, parseShips_ok shipsJson ships hp]
          | _ => simp
      · simp [h1, h2, h3]
    · simp [h1, h2]

/-- A `PLACE_SHIPS` that does not meet the guard is answered with one error and
leaves every session as it was. -/
theorem placeShips_turned_away (st : Server) (conn : Conn) (json : Json) (env : Env)
    (r : SessionRef)
    (ht : (json.get "type").bind Json.s = .ok "PLACE_SHIPS")
    (hb : st.connectionSessions conn = some (some r))
    (h : ¬ placeAllowed (st.heap r) (roleOf st conn) json) :
    (∃ m, sends (handleWebSocketMessage st conn (some json) false env).2
        = [(conn, .error m)]) ∧
    faults (handleWebSocketMessage st conn (some json) false env).2 = false ∧
    (handleWebSocketMessage st conn (some json) false env).1.heap = st.heap := by
  have hr := placeShips_reject (st.heap r) conn (roleOf st conn) json h
  obtain ⟨e1, e2, _⟩ := rejected_events _ _ conn r hr
  rw [handle_placeShips st conn json env r ht hb]
  refine ⟨e1, e2, ?_⟩
  show heapSet st.heap r _ = st.heap
  rw [hr.1, heapSet_same]

/-- C4: a `PLACE_SHIPS` from a connection bound to a session changes the session
(stores the sender's ships, sets its flag) only if the state is `PLACING_SHIPS`,
the sender's `shipsPlaced` is false and `ships` is present and is a list of lists
of 2-element lists; in every other case exactly one message is sent, an error to
the sender, nothing faults, and every session is as before. -/
theorem placeShips_guarded (st : Server) (conn : Conn) (json : Json) (env : Env) (r : SessionRef)
    (ht : (json.get "type").bind Json.s = .ok "PLACE_SHIPS")
    (hb : st.connectionSessions conn = some (some r)) :
    ((handleWebSocketMessage st conn (some json) false env).1.heap r ≠ st.heap r →
        placeAllowed (st.heap r) (roleOf st conn) json) ∧
    (¬ placeAllowed (st.heap r) (roleOf st conn) json →
        (∃ m, sends (handleWebSocketMessage st conn (some json) false env).2
            = [(conn, .error m)]) ∧
        faults (handleWebSocketMessage st conn (some json) false env).2 = false ∧
        (handleWebSocketMessage st conn (some json) false env).1.heap = st.heap) := by
  refine ⟨fun hp => ?_, placeShips_turned_away st conn json env r ht hb⟩
  by_contra hn
  exact hp (by rw [(placeShips_turned_away st conn json env r ht hb hn).2.2])

/-- Witness of C4: player1 sends `PLACE_SHIPS` again once the game is running. -/
theorem placeShips_guarded_witness :
    (∃ m, sends (handleWebSocketMessage (run Server.init ready).1 1
        (some (.obj [("type", .str "PLACE_SHIPS"), ("ships", .list [])])) false (envAt 4)).2
          = [(1, .error m)]) ∧
    faults (handleWebSocketMessage (run Server.init ready).1 1
        (some (.obj [("type", .str "PLACE_SHIPS"), ("ships", .list [])])) false (envAt 4)).2
          = false ∧
    (handleWebSocketMessage (run Server.init ready).1 1
        (some (.obj [("type", .str "PLACE_SHIPS"), ("ships", .list [])])) false (envAt 4)).1.heap
          = (run Server.init ready).1.heap :=
  (placeShips_guarded (run Server.init ready).1 1
    (.obj [("type", .str "PLACE_SHIPS"), ("ships", .list [])]) (envAt 4) 0
    rfl (by decide)).2 (by decide)

theorem get_has (json : Json) (key : String) (v : Json) (h : json.get key = .ok v) :
    json.has key = true := by
  unfold Json.get at h
  unfold Json.has
  split at h
  · next kvs =>
    cases hf : Json.find kvs key with
    | none => rw [hf] at h; cases h
    | some v => simp
  · cases h

theorem parseCells_cells (sh : List Cell) :
    parseCells (sh.map fun c => .list [.num c.1, .num c.2]) = .ok (sh.map narrow) := by
  induction sh with
  | nil => rfl
  | cons c rest ih =>
    simp only [List.map_cons, parseCells, parseCell, Json.i, ih]
    rfl

theorem parseShips_cells (cells : List (List Cell)) :
    parseShips (cells.map fun sh => .list (sh.map fun c => .list [.num c.1, .num c.2]))
      = .ok (cells.map fun sh => sh.map narrow) := by
  induction cells with
  | nil => rfl
  | cons sh rest ih =>
    simp only [List.map_cons, parseShips, parseCells_cells, ih]

theorem storeShips_session (s : GameSession) (conn : Conn) (b : Bool) (ships : List (List Cell)) :
    (storeShips s conn b ships).session =
      if (s.place b ships).player1.shipsPlaced = true ∧ (s.place b ships).player2.shipsPlaced = true
      then { s.place b ships with state := .IN_GAME } else s.place b ships := by
  unfold storeShips
  by_cases h : (s.place b ships).player1.shipsPlaced = true ∧ (s.place b ships).player2.shipsPlaced = true
  · simp [h]
  · rw [if_neg h]
    have : ((s.place b ships).player1.shipsPlaced && (s.place b ships).player2.shipsPlaced) = false := by
      simpa using h
    simp [this]

theorem storeShips_events (s : GameSession) (conn : Conn) (b : Bool) (ships : List (List Cell)) :
    ∃ rest, (storeShips s conn b ships).events = Ev.send conn .shipsPlaced :: rest := by
  unfold storeShips
  by_cases h : ((s.place b ships).player1.shipsPlaced && (s.place b ships).player2.shipsPlaced) = true
  · simp [h]
  · simp [h]

theorem place_slot (s : GameSession) (b : Bool) (ships : List (List Cell)) :
    ((s.place b ships).slot b).board.ships = ships.map Ship.mk ∧
    ((s.place b ships).slot b).shipsPlaced = true ∧
    (s.place b ships).slot (!b) = s.slot (!b) ∧
    (s.place b ships).state = s.state ∧ (s.place b ships).currentTurn = s.currentTurn ∧
    (s.place b ships).player1.socket = s.player1.socket ∧
    (s.place b ships).player2.socket = s.player2.socket := by
  cases b <;> simp [GameSession.place, GameSession.slot]

theorem storeShips_slot (s : GameSession) (conn : Conn) (b : Bool) (ships : List (List Cell)) :
    ((storeShips s conn b ships).session.slot b).board.ships = ships.map Ship.mk := by
  rw [storeShips_session]
  split
  · exact (place_slot s b ships).1
  · exact (place_slot s b ships).1

theorem placeShips_accept (s : GameSession) (conn : Conn) (b : Bool) (json : Json)
    (cells : List (List Cell))
    (hs : json.get "ships" = .ok (shipsJson cells))
    (hstate : s.state = .PLACING_SHIPS) (hfree : (s.slot b).shipsPlaced = false) :
    placeShips s conn b json = storeShips s conn b (cells.map fun sh => sh.map narrow) := by
  have hh := get_has json "ships" _ hs
  unfold placeShips
  unfold GameSession.slot at hfree
  simp only [hfree, hstate, hh, hs, shipsJson, parseShips_cells]
  simp

/-- C9, amended: a `PLACE_SHIPS` with integer coordinates, sent in state
`PLACING_SHIPS` by a player that has not placed yet, is accepted whatever the
coordinates are, and the sender's board holds exactly the cells of the message,
each coordinate narrowed to `int`; no cell is compared with the grid bounds. -/
theorem placeShips_stores_cells (st : Server) (conn : Conn) (json : Json) (env : Env)
    (r : SessionRef) (cells : List (List Cell))
    (ht : (json.get "type").bind Json.s = .ok "PLACE_SHIPS")
    (hb : st.connectionSessions conn = some (some r))
    (hs : json.get "ships" = .ok (shipsJson cells))
    (hstate : (st.heap r).state = .PLACING_SHIPS)
    (hfree : ((st.heap r).slot (roleOf st conn)).shipsPlaced = false) :
    (conn, Msg.shipsPlaced) ∈ sends (handleWebSocketMessage st conn (some json) false env).2 ∧
    (((handleWebSocketMessage st conn (some json) false env).1.heap r).slot
        (roleOf st conn)).board.ships
      = cells.map (fun sh => Ship.mk (sh.map narrow)) := by
  rw [handle_placeShips st conn json env r ht hb,
    placeShips_accept _ conn _ json cells hs hstate hfree]
  constructor
  · obtain ⟨rest, he⟩ := storeShips_events (st.heap r) conn (roleOf st conn)
      (cells.map fun sh => sh.map narrow)
    rw [he]
    simp [sends]
  · show ((heapSet st.heap r _ r).slot _).board.ships = _
    simp only [heapSet, if_true]
    rw [storeShips_slot]
    simp

/-- C9, counterexample: after create and join, player1 places one ship with the
single cell (10, -1); the dispatcher confirms with ships-placed and the cell is
on player1's board although it lies outside the 10 by 10 grid. -/
theorem place_outside_grid :
    (1, Msg.shipsPlaced) ∈ sends (handleWebSocketMessage (run Server.init joined).1 1
        (placeFrame [[(10, -1)]]) false (envAt 2)).2 ∧
    ((handleWebSocketMessage (run Server.init joined).1 1
        (placeFrame [[(10, -1)]]) false (envAt 2)).1.heap 0).player1.board.ships
      = [⟨[(10, -1)]⟩] ∧
    ¬ inGrid (10, -1) := by
  decide

/-- Witness of C9 (amended): after create and join, player1 places the cell
(10, -1). -/
theorem placeShips_stores_cells_witness :
    (1, Msg.shipsPlaced) ∈ sends (handleWebSocketMessage (run Server.init joined).1 1
        (some (.obj [("type", .str "PLACE_SHIPS"), ("ships", shipsJson [[(10, -1)]])]))
        false (envAt 2)).2 ∧
    (((handleWebSocketMessage (run Server.init joined).1 1
        (some (.obj [("type", .str "PLACE_SHIPS"), ("ships", shipsJson [[(10, -1)]])]))
        false (envAt 2)).1.heap 0).slot (roleOf (run Server.init joined).1 1)).board.ships
      = [[(10, -1)]].map (fun sh => Ship.mk (sh.map narrow)) :=
  placeShips_stores_cells (run Server.init joined).1 1
    (.obj [("type", .str "PLACE_SHIPS"), ("ships", shipsJson [[(10, -1)]])]) (envAt 2) 0
    [[(10, -1)]] rfl (by decide) rfl (by decide) (by decide)

/-! ## Shots at a cell that was already shot -/

/-- What `processShot` leaves alone and what it changes, slot by slot. -/
theorem processShot_effect (s : GameSession) (x y : Int) :
    ((GameEngine.processShot s x y).2.slot (!s.turnIsPlayer1)
        = { s.getOpponent with board := s.getOpponent.board.record x y }) ∧
    ((GameEngine.processShot s x y).2.slot s.turnIsPlayer1
        = { s.getCurrentPlayer with
            stats := s.getCurrentPlayer.stats.count (GameEngine.processShot s x y).1 }) ∧
    (GameEngine.processShot s x y).1 = GameEngine.outcome s.getOpponent.board x y ∧
    (GameEngine.processShot s x y).2.state
        = (if (GameEngine.processShot s x y).1 = .WIN then .FINISHED else s.state) ∧
    (GameEngine.processShot s x y).2.currentTurn
        = (if (GameEngine.processShot s x y).1 = .MISS then (if s.currentTurn = 1 then 2 else 1)
           else s.currentTurn) := by
  unfold GameEngine.processShot GameSession.slot GameSession.turnIsPlayer1
  by_cases h : s.currentTurn = 1 <;>
    cases GameEngine.outcome s.getOpponent.board x y <;> simp [h]

theorem processShot_sockets (s : GameSession) (x y : Int) :
    (GameEngine.processShot s x y).2.player1.socket = s.player1.socket ∧
    (GameEngine.processShot s x y).2.player2.socket = s.player2.socket ∧
    (GameEngine.processShot s x y).2.player1.shipsPlaced = s.player1.shipsPlaced ∧
    (GameEngine.processShot s x y).2.player2.shipsPlaced = s.player2.shipsPlaced := by
  unfold GameEngine.processShot GameSession.getCurrentPlayer GameSession.getOpponent
  by_cases h : s.currentTurn = 1 <;>
    cases GameEngine.outcome (if s.currentTurn = 1 then s.player2 else s.player1).board x y <;>
    simp [h]

theorem record_repeated (b : Board) (x y : Int) (h : (x, y) ∈ b.shotsReceived) :
    b.record x y = b := by
  unfold Board.record
  simp [h]

theorem fire_session (s : GameSession) (conn : Conn) (b : Bool) (x y : Int) (now : Nat) :
    (fire s conn b x y now).session = (GameEngine.processShot s x y).2 ∨
    (fire s conn b x y now).session = (GameEngine.processShot s x y).2.updateActivity now := by
  unfold fire
  by_cases h : (GameEngine.processShot s x y).1 = .WIN
  · simp only [h, if_true]
    cases (GameEngine.processShot s x y).2.player1.socket <;> simp
  · simp [h]

theorem errors_append (a b : List Ev) : errors (a ++ b) = (errors a || errors b) := by
  induction a with
  | nil => rfl
  | cons e rest ih =>
    cases e with
    | send c m => cases m <;> simp [errors, ih]
    | _ => simp [errors, ih]

theorem errors_sendIf (o : Option Conn) (m : Msg) (hm : ∀ e, m ≠ .error e) :
    errors (sendIf o m) = false := by
  cases o with
  | none => rfl
  | some d =>
    cases m with
    | error e => exact absurd rfl (hm e)
    | _ => rfl

theorem fire_events (s : GameSession) (conn : Conn) (b : Bool) (x y : Int) (now : Nat) :
    processed (fire s conn b x y now).events = true ∧
    errors (fire s conn b x y now).events = false ∧
    (fire s conn b x y now).exit ≠ .throw "" := by
  unfold fire
  by_cases h : (GameEngine.processShot s x y).1 = .WIN
  · simp only [h, if_true]
    cases (GameEngine.processShot s x y).2.player1.socket with
    | none =>
      refine ⟨rfl, ?_, by simp⟩
      simp [errors_append, errors, errors_sendIf]
    | some p1 =>
      refine ⟨rfl, ?_, by simp⟩
      simp [errors_append, errors, errors_sendIf]
  · simp only [h, if_false]
    refine ⟨rfl, ?_, by simp⟩
    simp [errors_append, errors, errors_sendIf]

theorem fire_exit (s : GameSession) (conn : Conn) (b : Bool) (x y : Int) (now : Nat) :
    (fire s conn b x y now).exit = .ret ∨ (fire s conn b x y now).exit = .fault := by
  unfold fire
  by_cases h : (GameEngine.processShot s x y).1 = .WIN
  · simp only [h, if_true]
    cases (GameEngine.processShot s x y).2.player1.socket <;> simp
  · simp [h]

theorem shot_accept (s : GameSession) (conn : Conn) (b : Bool) (json : Json) (now : Nat)
    (x y : Int) (hx : json.get "x" = .ok (.num x)) (hy : json.get "y" = .ok (.num y))
    (hstate : s.state = .IN_GAME) (hturn : s.getCurrentPlayer.socket = some conn) :
    shot s conn b json now = fire s conn b (toInt32 x) (toInt32 y) now := by
  have h1 := get_has json "x" _ hx
  have h2 := get_has json "y" _ hy
  unfold shot
  simp only [hstate, hturn, h1, h2, hx, hy]
  simp [Except.bind, Json.i]

/-- C5, amended: in an `IN_GAME` session a `SHOT` from the player whose turn it
is, with integer `x` and `y`, at a cell that is already in the opponent board's
`shotsReceived` is not rejected by the dispatcher: it is passed to
`GameEngine::processShot` and no error is sent. The cell is not recorded a second
time (`shotsReceived` is as before), the shooter's shot count grows by one, and
`currentTurn` passes to the other player exactly when the outcome of the shot is
MISS (then it differs from its value before) and keeps its value otherwise. -/
theorem repeated_shot_processed (st : Server) (conn : Conn) (json : Json) (env : Env)
    (r : SessionRef) (x y : Int)
    (ht : (json.get "type").bind Json.s = .ok "SHOT")
    (hb : st.connectionSessions conn = some (some r))
    (hx : json.get "x" = .ok (.num x)) (hy : json.get "y" = .ok (.num y))
    (hstate : (st.heap r).state = .IN_GAME)
    (hturn : (st.heap r).getCurrentPlayer.socket = some conn)
    (hrep : (toInt32 x, toInt32 y) ∈ (st.heap r).getOpponent.board.shotsReceived) :
    processed (handleWebSocketMessage st conn (some json) false env).2 = true ∧
    errors (handleWebSocketMessage st conn (some json) false env).2 = false ∧
    (((handleWebSocketMessage st conn (some json) false env).1.heap r).slot
        (!(st.heap r).turnIsPlayer1)).board.shotsReceived
      = (st.heap r).getOpponent.board.shotsReceived ∧
    (((handleWebSocketMessage st conn (some json) false env).1.heap r).slot
        (st.heap r).turnIsPlayer1).stats.shots
      = (st.heap r).getCurrentPlayer.stats.shots + 1 ∧
    ((handleWebSocketMessage st conn (some json) false env).1.heap r).currentTurn
      = (if GameEngine.outcome (st.heap r).getOpponent.board (toInt32 x) (toInt32 y) = .MISS
         then (if (st.heap r).currentTurn = 1 then 2 else 1)
         else (st.heap r).currentTurn) ∧
    (GameEngine.outcome (st.heap r).getOpponent.board (toInt32 x) (toInt32 y) = .MISS →
      ((handleWebSocketMessage st conn (some json) false env).1.heap r).currentTurn
        ≠ (st.heap r).currentTurn) := by
  rw [handle_shot st conn json env r ht hb,
    shot_accept _ conn _ json env.now x y hx hy hstate hturn]
  obtain ⟨e1, e2, _⟩ := fire_events (st.heap r) conn (roleOf st conn) (toInt32 x) (toInt32 y) env.now
  obtain ⟨p1, p2, p3, _, p5⟩ := processShot_effect (st.heap r) (toInt32 x) (toInt32 y)
  have turn : (fire (st.heap r) conn (roleOf st conn) (toInt32 x) (toInt32 y) env.now).session.currentTurn
      = (if GameEngine.outcome (st.heap r).getOpponent.board (toInt32 x) (toInt32 y) = .MISS
         then (if (st.heap r).currentTurn = 1 then 2 else 1)
         else (st.heap r).currentTurn) := by
    rw [← p3, ← p5]
    rcases fire_session (st.heap r) conn (roleOf st conn) (toInt32 x) (toInt32 y) env.now with h | h
    · rw [h]
    · rw [h]
      rfl
  refine ⟨?_, ?_, ?_, ?_, ?_, ?_⟩
  · rw [processed_append, processed_append, e1]
    rfl
  · rw [errors_append, errors_append, e2]
    rcases fire_exit (st.heap r) conn (roleOf st conn) (toInt32 x) (toInt32 y) env.now with h | h
      <;> rw [h] <;> rfl
  · show ((heapSet st.heap r _ r).slot _).board.shotsReceived = _
    simp only [heapSet, if_true]
    rcases fire_session (st.heap r) conn (roleOf st conn) (toInt32 x) (toInt32 y) env.now with h | h
    · rw [h, p1, record_repeated _ _ _ hrep]
    · rw [h]
      show ((GameEngine.processShot (st.heap r) (toInt32 x) (toInt32 y)).2.slot _).board.shotsReceived = _
      rw [p1, record_repeated _ _ _ hrep]
  · show ((heapSet st.heap r _ r).slot _).stats.shots = _
    simp only [heapSet, if_true]
    rcases fire_session (st.heap r) conn (roleOf st conn) (toInt32 x) (toInt32 y) env.now with h | h
    · rw [h, p2]; rfl
    · rw [h]
      show ((GameEngine.processShot (st.heap r) (toInt32 x) (toInt32 y)).2.slot _).stats.shots = _
      rw [p2]; rfl
  · show (heapSet st.heap r _ r).currentTurn = _
    simp only [heapSet, if_true]
    exact turn
  · intro hmiss
    show (heapSet st.heap r _ r).currentTurn ≠ _
    simp only [heapSet, if_true]
    rw [turn, if_pos hmiss]
    by_cases h1 : (st.heap r).currentTurn = 1
    · rw [if_pos h1, h1]
      decide
    · rw [if_neg h1]
      exact fun e => h1 e.symm

/-- Witness of C5 (amended): player1 shoots at (3,3) a second time; the shot
misses again and the turn passes to player2. -/
theorem repeated_shot_processed_witness :
    processed (handleWebSocketMessage (run Server.init volley).1 1
      (some (.obj [("type", .str "SHOT"), ("x", .num 3), ("y", .num 3)])) false (envAt 6)).2
        = true ∧
    errors (handleWebSocketMessage (run Server.init volley).1 1
      (some (.obj [("type", .str "SHOT"), ("x", .num 3), ("y", .num 3)])) false (envAt 6)).2
        = false ∧
    (((handleWebSocketMessage (run Server.init volley).1 1
      (some (.obj [("type", .str "SHOT"), ("x", .num 3), ("y", .num 3)])) false (envAt 6)).1.heap 0).slot
        (!((run Server.init volley).1.heap 0).turnIsPlayer1)).board.shotsReceived
      = ((run Server.init volley).1.heap 0).getOpponent.board.shotsReceived ∧
    (((handleWebSocketMessage (run Server.init volley).1 1
      (some (.obj [("type", .str "SHOT"), ("x", .num 3), ("y", .num 3)])) false (envAt 6)).1.heap 0).slot
        ((run Server.init volley).1.heap 0).turnIsPlayer1).stats.shots
      = ((run Server.init volley).1.heap 0).getCurrentPlayer.stats.shots + 1 ∧
    ((handleWebSocketMessage (run Server.init volley).1 1
      (some (.obj [("type", .str "SHOT"), ("x", .num 3), ("y", .num 3)])) false (envAt 6)).1.heap
        0).currentTurn
      = (if GameEngine.outcome ((run Server.init volley).1.heap 0).getOpponent.board
            (toInt32 3) (toInt32 3) = .MISS
         then (if ((run Server.init volley).1.heap 0).currentTurn = 1 then 2 else 1)
         else ((run Server.init volley).1.heap 0).currentTurn) ∧
    ((handleWebSocketMessage (run Server.init volley).1 1
      (some (.obj [("type", .str "SHOT"), ("x", .num 3), ("y", .num 3)])) false (envAt 6)).1.heap
        0).currentTurn
      ≠ ((run Server.init volley).1.heap 0).currentTurn :=
  (repeated_shot_processed (run Server.init volley).1 1
    (.obj [("type", .str "SHOT"), ("x", .num 3), ("y", .num 3)]) (envAt 6) 0 3 3
    rfl (by decide) rfl rfl (by decide) (by decide) (by decide)).imp id
    (fun h => h.imp id (fun h => h.imp id (fun h => h.imp id (fun h => h.imp id
      (fun h => h (by decide))))))

/-- C5, counterexample: it is player1's turn in a running game and (3,3) is
already in player2's `shotsReceived`; player1's `SHOT` at (3,3) is processed by
the engine, no error is sent, and player1's shot count and `currentTurn` both
change. -/
theorem repeated_shot_not_rejected :
    ((run Server.init volley).1.heap 0).state = .IN_GAME ∧
    ((run Server.init volley).1.heap 0).getCurrentPlayer.socket = some 1 ∧
    ((3, 3) : Cell) ∈ ((run Server.init volley).1.heap 0).getOpponent.board.shotsReceived ∧
    processed (handleWebSocketMessage (run Server.init volley).1 1 (shotFrame 3 3) false
      (envAt 6)).2 = true ∧
    errors (handleWebSocketMessage (run Server.init volley).1 1 (shotFrame 3 3) false
      (envAt 6)).2 = false ∧
    ((handleWebSocketMessage (run Server.init volley).1 1 (shotFrame 3 3) false
      (envAt 6)).1.heap 0).player1.stats.shots
        ≠ ((run Server.init volley).1.heap 0).player1.stats.shots ∧
    ((handleWebSocketMessage (run Server.init volley).1 1 (shotFrame 3 3) false
      (envAt 6)).1.heap 0).currentTurn
        ≠ ((run Server.init volley).1.heap 0).currentTurn := by
  decide

/-! ## Closing a connection -/

theorem close_unbound (st : Server) (conn : Conn) (h : st.connectionSessions conn = none) :
    handleWebSocketClose st conn = (st, [Ev.lockConn, Ev.unlockConn]) := by
  unfold handleWebSocketClose
  rw [h]

theorem close_erases (st : Server) (conn : Conn) :
    (handleWebSocketClose st conn).1.connectionSessions conn = none := by
  unfold handleWebSocketClose
  cases h : st.connectionSessions conn with
  | none => simpa using h
  | some cur => cases cur <;> simp [mapErase]

theorem close_bound (st : Server) (conn : Conn) (r : SessionRef)
    (hb : st.connectionSessions conn = some (some r)) :
    handleWebSocketClose st conn =
      ({ st with heap := heapSet st.heap r ((st.heap r).unplug (roleOf st conn)),
                 connectionSessions := mapErase st.connectionSessions conn,
                 connectionPlayerIds := mapErase st.connectionPlayerIds conn,
                 connectionIsPlayer1 := mapErase st.connectionIsPlayer1 conn },
       [Ev.lockConn, Ev.lockSession r]
         ++ sendIf ((st.heap r).slot (!roleOf st conn)).socket (.error "Противник отключился")
         ++ [Ev.unlockSession r, Ev.unlockConn]) := by
  unfold handleWebSocketClose roleOf
  rw [hb]
  cases (st.connectionIsPlayer1 conn).getD false <;> rfl

theorem unplug_facts (s : GameSession) (b : Bool) :
    (s.unplug b).slot b = { s.slot b with socket := none } ∧
    (s.unplug b).slot (!b) = s.slot (!b) ∧
    (s.unplug b).state = s.state ∧ (s.unplug b).currentTurn = s.currentTurn ∧
    (s.unplug b).lastActivity = s.lastActivity ∧ (s.unplug b).roomCode = s.roomCode := by
  cases b <;> simp [GameSession.unplug, GameSession.slot]

/-- C7: the effects of `handleWebSocketClose(c)` in any state. If `c` has an
entry for session `r` with role `b`: the slot of role `b` of `r` is as before but
with a null socket; the other slot (board, flag, statistics, socket), the state,
`currentTurn`, `lastActivity` and the room code of `r` are as before; all other
sessions are as before; the messages sent are one error to the other player's
socket when it is not null and none otherwise; `c` is erased from the three maps
and the entries of other connections are as before; the table of the session
manager is as before. If `c` has no entry, the state is as before and nothing is
sent. Closing a second time changes nothing and sends nothing. -/
theorem close_effect (st : Server) (conn : Conn) :
    (∀ r, st.connectionSessions conn = some (some r) →
      ((handleWebSocketClose st conn).1.heap r).slot (roleOf st conn)
        = { (st.heap r).slot (roleOf st conn) with socket := none } ∧
      ((handleWebSocketClose st conn).1.heap r).slot (!roleOf st conn)
        = (st.heap r).slot (!roleOf st conn) ∧
      ((handleWebSocketClose st conn).1.heap r).state = (st.heap r).state ∧
      ((handleWebSocketClose st conn).1.heap r).currentTurn = (st.heap r).currentTurn ∧
      ((handleWebSocketClose st conn).1.heap r).lastActivity = (st.heap r).lastActivity ∧
      ((handleWebSocketClose st conn).1.heap r).roomCode = (st.heap r).roomCode ∧
      (∀ q, q ≠ r → (handleWebSocketClose st conn).1.heap q = st.heap q) ∧
      sends (handleWebSocketClose st conn).2
        = (match ((st.heap r).slot (!roleOf st conn)).socket with
           | some d => [(d, .error "Противник отключился")]
           | none => []) ∧
      faults (handleWebSocketClose st conn).2 = false ∧
      (handleWebSocketClose st conn).1.connectionSessions conn = none ∧
      (handleWebSocketClose st conn).1.connectionPlayerIds conn = none ∧
      (handleWebSocketClose st conn).1.connectionIsPlayer1 conn = none ∧
      (∀ c, c ≠ conn →
        (handleWebSocketClose st conn).1.connectionSessions c = st.connectionSessions c ∧
        (handleWebSocketClose st conn).1.connectionPlayerIds c = st.connectionPlayerIds c ∧
        (handleWebSocketClose st conn).1.connectionIsPlayer1 c = st.connectionIsPlayer1 c) ∧
      (handleWebSocketClose st conn).1.sessionManager = st.sessionManager ∧
      (handleWebSocketClose st conn).1.nextRef = st.nextRef) ∧
    (st.connectionSessions conn = none →
      (handleWebSocketClose st conn).1 = st ∧ sends (handleWebSocketClose st conn).2 = []) ∧
    (handleWebSocketClose (handleWebSocketClose st conn).1 conn).1
        = (handleWebSocketClose st conn).1 ∧
    sends (handleWebSocketClose (handleWebSocketClose st conn).1 conn).2 = [] := by
  refine ⟨?_, ?_, ?_, ?_⟩
  · intro r hb
    rw [close_bound st conn r hb]
    obtain ⟨u1, u2, u3, u4, u5, u6⟩ := unplug_facts (st.heap r) (roleOf st conn)
    have hr : heapSet st.heap r ((st.heap r).unplug (roleOf st conn)) r
        = (st.heap r).unplug (roleOf st conn) := by simp only [heapSet, if_true]
    refine ⟨?_, ?_, ?_, ?_, ?_, ?_, ?_, ?_, ?_, ?_, ?_, ?_, ?_, rfl, rfl⟩
    · show (heapSet st.heap r _ r).slot _ = _
      rw [hr, u1]
    · show (heapSet st.heap r _ r).slot _ = _
      rw [hr, u2]
    · show (heapSet st.heap r _ r).state = _
      rw [hr, u3]
    · show (heapSet st.heap r _ r).currentTurn = _
      rw [hr, u4]
    · show (heapSet st.heap r _ r).lastActivity = _
      rw [hr, u5]
    · show (heapSet st.heap r _ r).roomCode = _
      rw [hr, u6]
    · intro q hq
      simp only [heapSet, if_neg hq]
    · cases ((st.heap r).slot (!roleOf st conn)).socket <;> rfl
    · cases ((st.heap r).slot (!roleOf st conn)).socket <;> rfl
    · simp [mapErase]
    · simp [mapErase]
    · simp [mapErase]
    · intro c hc
      simp [mapErase, hc]
  · intro h
    rw [close_unbound st conn h]
    exact ⟨rfl, rfl⟩
  · rw [close_unbound _ conn (close_erases st conn)]
  · rw [close_unbound _ conn (close_erases st conn)]
    rfl

/-- Witness of C7: in a running game connection 2 closes; player1 is told. -/
theorem close_effect_witness :
    (((handleWebSocketClose (run Server.init ready).1 2).1.heap 0).slot
        (roleOf (run Server.init ready).1 2)).socket = none ∧
    sends (handleWebSocketClose (run Server.init ready).1 2).2
      = [(1, .error "Противник отключился")] ∧
    (handleWebSocketClose (run Server.init ready).1 2).1.connectionSessions 2 = none :=
  ⟨by rw [((close_effect (run Server.init ready).1 2).1 0 (by decide)).1],
   by
    rw [((close_effect (run Server.init ready).1 2).1 0 (by decide)).2.2.2.2.2.2.2.1]
    decide,
   ((close_effect (run Server.init ready).1 2).1 0 (by decide)).2.2.2.2.2.2.2.2.2.1⟩

/-! ## Failing runs -/

/-- C1, failing runs: with the other player gone, the second `PLACE_SHIPS` sends
both-players-ready through player2's null socket, and a winning `SHOT` of player2
sends game-over through player1's null socket; both handlers fault there. -/
theorem null_send_after_disconnect :
    (run Server.init placeAfterLoss).2.getLast? =
      some [Ev.lockConn, Ev.lockSession 0, Ev.send 1 .shipsPlaced,
            Ev.send 1 .bothPlayersReady, Ev.nullSend .bothPlayersReady] ∧
    (run Server.init winAfterLoss).2.getLast? =
      some [Ev.lockConn, Ev.lockSession 0, Ev.processShot 0 0,
            Ev.send 2 (.stateMyShot ⟨[⟨[(0, 0)]⟩], [(0, 0)]⟩),
            Ev.nullSend (.gameOver "player2" ⟨1, 0, 0⟩)] := by
  decide

/-- C6, failing runs: connection 1 creates two rooms and closes. The close
handler nulls the socket of the second session only: the first session is still
in the session manager and its player1 still refers to the closed connection 1,
and a later `JOIN_SESSION` of connection 2 sends game-start through it. The same
happens when connection 1 joins its own room and closes: only player2's socket
is nulled. -/
theorem dangling_after_close :
    (run Server.init createTwice).1.connectionSessions 1 = none ∧
    (run Server.init createTwice).1.sessionManager "ABC123" = some 0 ∧
    ((run Server.init createTwice).1.heap 0).player1.socket = some 1 ∧
    (handleWebSocketMessage (run Server.init createTwice).1 2
        (frame "JOIN_SESSION" [("roomCode", .str "ABC123")]) false ⟨2, ""⟩).2 =
      [Ev.lockConn, Ev.lockSession 0, Ev.unlockSession 0, Ev.unlockConn,
       Ev.send 1 (.gameStart 1), Ev.send 2 (.gameStart 1)] ∧
    (run Server.init joinOwn).1.connectionSessions 1 = none ∧
    (run Server.init joinOwn).1.sessionManager "ABC123" = some 0 ∧
    ((run Server.init joinOwn).1.heap 0).player1.socket = some 1 := by
  decide

/-- C10, failing inputs: the close handler notifies the other player, and the
message handler answers `PLACE_SHIPS` and `SHOT`, while holding `connectionMutex`
and the session mutex; `CREATE_SESSION` and `JOIN_SESSION` send after releasing
both. -/
theorem sends_under_locks :
    (handleWebSocketClose (run Server.init joined).1 2).2 =
      [Ev.lockConn, Ev.lockSession 0, Ev.send 1 (.error "Противник отключился"),
       Ev.unlockSession 0, Ev.unlockConn] ∧
    sendsUnlocked (handleWebSocketClose (run Server.init joined).1 2).2 0 = false ∧
    (handleWebSocketMessage (run Server.init joined).1 1 (placeFrame [[(0, 0)]]) false
        (envAt 2)).2 =
      [Ev.lockConn, Ev.lockSession 0, Ev.send 1 .shipsPlaced,
       Ev.unlockSession 0, Ev.unlockConn] ∧
    sendsUnlocked (handleWebSocketMessage (run Server.init joined).1 1 (placeFrame [[(0, 0)]])
        false (envAt 2)).2 0 = false ∧
    sendsUnlocked (handleWebSocketMessage (run Server.init ready).1 1 (shotFrame 5 5)
        false (envAt 4)).2 0 = false ∧
    (run Server.init joined).2.all (fun evs => sendsUnlocked evs 0) = true := by
  decide

/-! ## The reachable states and their invariant -/

theorem sessionUpdate_refl (s : GameSession) (b : Bool) : SessionUpdate s s b :=
  ⟨rfl, rfl, fun _ => rfl, fun h => h, fun _ h1 h2 => ⟨h1, h2⟩, le_refl _⟩

theorem placeShips_cases (s : GameSession) (conn : Conn) (b : Bool) (json : Json) :
    (placeShips s conn b json).Rejected s conn ∨
    (s.state = .PLACING_SHIPS ∧ (s.slot b).shipsPlaced = false ∧
      ∃ ships, placeShips s conn b json = storeShips s conn b ships) := by
  unfold Body.Rejected placeShips GameSession.slot
  by_cases h1 : (if b = true then s.player1 else s.player2).shipsPlaced = true
  · simp [h1]
  · by_cases h2 : s.state = .PLACING_SHIPS
    · by_cases h3 : json.has "ships" = true
      · simp only [h1, h2, h3]
        cases hg : json.get "ships" with
        | error w => simp
        | ok v =>
          cases v with
          | list shipsJson =>
            cases hp : parseShips shipsJson with
            | reject m => simp [hp]
            | throw w => simp [hp]
            | ok ships =>
              right
              exact ⟨trivial, (by simp [h1]), ships, (by simp [hp])⟩
          | _ => simp
      · simp [h1, h2, h3]
    · simp [h1, h2]

theorem storeShips_update (s : GameSession) (conn : Conn) (b : Bool) (ships : List (List Cell))
    (hs : s.state = .PLACING_SHIPS) :
    SessionUpdate s (storeShips s conn b ships).session b := by
  obtain ⟨_, _, p3, p4, _, p6, p7⟩ := place_slot s b ships
  rw [storeShips_session]
  by_cases h : (s.place b ships).player1.shipsPlaced = true ∧
      (s.place b ships).player2.shipsPlaced = true
  · rw [if_pos h]
    refine ⟨p6, p7, ?_, ?_, ?_, ?_⟩
    · intro hw; rw [hs] at hw; cases hw
    · intro _
      exact ⟨fun hw => (by cases hw), fun _ => h⟩
    · intro hb _ hp
      subst hb
      have : (s.place false ships).player1 = s.player1 := by
        simpa [GameSession.slot] using p3
      rw [this, hp] at h
      cases h.1
    · show s.state.rank ≤ GameState.rank .IN_GAME
      rw [hs]
      decide
  · rw [if_neg h]
    refine ⟨p6, p7, ?_, ?_, ?_, ?_⟩
    · intro hw; rw [hs] at hw; cases hw
    · intro _
      rw [SessionOk, p4, hs]
      exact ⟨fun hw => (by cases hw), fun hw => (by rcases hw with hw | hw <;> cases hw)⟩
    · intro hb _ hp
      subst hb
      have : (s.place false ships).player1 = s.player1 := by
        simpa [GameSession.slot] using p3
      rw [this, p4]
      exact ⟨hs, hp⟩
    · rw [p4]

theorem placeShips_update (s : GameSession) (conn : Conn) (b : Bool) (json : Json) :
    SessionUpdate s (placeShips s conn b json).session b := by
  rcases placeShips_cases s conn b json with h | ⟨hs, _, ships, he⟩
  · rw [h.1]
    exact sessionUpdate_refl s b
  · rw [he]
    exact storeShips_update s conn b ships hs

theorem shot_cases (s : GameSession) (conn : Conn) (b : Bool) (json : Json) (now : Nat) :
    (shot s conn b json now).Rejected s conn ∨
    (s.state = .IN_GAME ∧ s.getCurrentPlayer.socket = some conn ∧
      ∃ x y, shot s conn b json now = fire s conn b x y now) := by
  unfold Body.Rejected shot
  by_cases h1 : s.state = .IN_GAME
  · by_cases h2 : s.getCurrentPlayer.socket = some conn
    · by_cases h4 : (!json.has "x" || !json.has "y") = true
      · simp [h1, h2, h4]
      · simp only [h1, h2, h4]
        cases hx : (json.get "x").bind Json.i with
        | error w => simp
        | ok x =>
          cases hy : (json.get "y").bind Json.i with
          | error w => simp
          | ok y =>
            right
            exact ⟨trivial, trivial, toInt32 x, toInt32 y, by simp⟩
    · simp [h1, h2]
  · simp [h1]

theorem fire_update (s : GameSession) (conn : Conn) (b : Bool) (x y : Int) (now : Nat)
    (hs : s.state = .IN_GAME) :
    SessionUpdate s (fire s conn b x y now).session b := by
  obtain ⟨q1, q2, q3, q4⟩ := processShot_sockets s x y
  obtain ⟨_, _, _, q5, _⟩ := processShot_effect s x y
  have key : SessionUpdate s (GameEngine.processShot s x y).2 b := by
    refine ⟨q1, q2, ?_, ?_, ?_, ?_⟩
    · intro hw; rw [hs] at hw; cases hw
    · intro hok
      have := hok.2 (Or.inl hs)
      rw [SessionOk, q3, q4, q5]
      refine ⟨fun hw => ?_, fun _ => this⟩
      split at hw
      · cases hw
      · rw [hs] at hw; cases hw
    · intro _ hp; rw [hs] at hp; cases hp
    · rw [q5, hs]
      split <;> decide
  rcases fire_session s conn b x y now with h | h
  · rw [h]; exact key
  · rw [h]
    exact ⟨key.socket1, key.socket2, fun hw => (by rw [hs] at hw; cases hw), key.ok, key.quiet, key.rank⟩

theorem shot_update (s : GameSession) (conn : Conn) (b : Bool) (json : Json) (now : Nat) :
    SessionUpdate s (shot s conn b json now).session b := by
  rcases shot_cases s conn b json now with h | ⟨hs, _, x, y, he⟩
  · rw [h.1]
    exact sessionUpdate_refl s b
  · rw [he]
    exact fire_update s conn b x y now hs

theorem mono_refl (st : Server) : Mono st st := fun _ => le_refl _

theorem inv_init : Inv Server.init := by
  refine ⟨fun _ _ => rfl, ?_, ?_, ?_, ?_, ?_⟩
  · intro code r h; cases h
  · intro c r h; cases h
  · intro c r h; cases h
  · intro c r h; cases h
  · intro r
    exact ⟨fun _ => rfl, fun h => by rcases h with h | h <;> cases h⟩

/-- The invariant only reads the heap, the counter, the table, the session map
and the roles. -/
theorem inv_congr (st st1 : Server) (h : Inv st) (h1 : st1.heap = st.heap)
    (h2 : st1.nextRef = st.nextRef) (h3 : st1.sessionManager = st.sessionManager)
    (h4 : st1.connectionSessions = st.connectionSessions)
    (h5 : ∀ c, roleOf st1 c = roleOf st c) : Inv st1 := by
  refine ⟨?_, ?_, ?_, ?_, ?_, ?_⟩
  · intro r hr; rw [h1]; rw [h2] at hr; exact h.fresh r hr
  · intro code r hr; rw [h3] at hr; rw [h2]; exact h.table code r hr
  · intro c r hr; rw [h4] at hr; rw [h2]; exact h.bound c r hr
  · intro c r hr hb; rw [h4] at hr; rw [h5] at hb; rw [h1]; exact h.asPlayer1 c r hr hb
  · intro c r hr hb; rw [h4] at hr; rw [h5] at hb; rw [h1]; exact h.asPlayer2 c r hr hb
  · intro r; rw [h1]; exact h.ok r

theorem lookup_facts (st : Server) (conn : Conn) :
    (lookup st conn).2.2.heap = st.heap ∧ (lookup st conn).2.2.nextRef = st.nextRef ∧
    (lookup st conn).2.2.sessionManager = st.sessionManager ∧
    (lookup st conn).2.2.connectionSessions = st.connectionSessions ∧
    (∀ c, roleOf (lookup st conn).2.2 c = roleOf st c) ∧
    (∀ r, (lookup st conn).1 = some r →
      st.connectionSessions conn = some (some r) ∧ (lookup st conn).2.1 = roleOf st conn) := by
  unfold lookup
  cases h : st.connectionSessions conn with
  | none =>
    refine ⟨rfl, rfl, rfl, rfl, fun _ => rfl, ?_⟩
    intro r hr; cases hr
  | some cur =>
    cases hb : st.connectionIsPlayer1 conn with
    | none =>
      refine ⟨rfl, rfl, rfl, rfl, ?_, ?_⟩
      · intro c
        simp only [roleOf, mapSet]
        by_cases hc : c = conn
        · simp [hc, hb]
        · simp [hc]
      · intro r hr
        simp only at hr
        rw [hr]
        simp [roleOf, hb]
    | some b =>
      refine ⟨rfl, rfl, rfl, rfl, fun _ => rfl, ?_⟩
      intro r hr
      simp only at hr
      rw [hr]
      simp [roleOf, hb]

theorem inv_lookup (st : Server) (conn : Conn) (h : Inv st) : Inv (lookup st conn).2.2 := by
  obtain ⟨h1, h2, h3, h4, h5, _⟩ := lookup_facts st conn
  exact inv_congr st _ h h1 h2 h3 h4 h5

theorem roleOf_bind (st : Server) (conn : Conn) (o : Option SessionRef) (id : String) (b : Bool)
    (c : Conn) : roleOf (st.bind conn o id b) c = if c = conn then b else roleOf st c := by
  unfold roleOf Server.bind mapSet
  by_cases hc : c = conn <;> simp [hc]

theorem inv_create (st : Server) (conn : Conn) (env : Env) (h : Inv st) :
    Inv ((SessionManager.createSession st (Player.new (some conn) "player1") env).2.bind conn
      (SessionManager.getSession
        (SessionManager.createSession st (Player.new (some conn) "player1") env).2
        (SessionManager.createSession st (Player.new (some conn) "player1") env).1)
      "player1" true) ∧
    Mono st ((SessionManager.createSession st (Player.new (some conn) "player1") env).2.bind conn
      (SessionManager.getSession
        (SessionManager.createSession st (Player.new (some conn) "player1") env).2
        (SessionManager.createSession st (Player.new (some conn) "player1") env).1)
      "player1" true) := by
  have hg : SessionManager.getSession
        (SessionManager.createSession st (Player.new (some conn) "player1") env).2
        (SessionManager.createSession st (Player.new (some conn) "player1") env).1
      = some st.nextRef := by
    simp [SessionManager.getSession, SessionManager.createSession, mapSet]
  rw [hg]
  constructor
  · refine ⟨?_, ?_, ?_, ?_, ?_, ?_⟩
    · intro r hr
      have hr1 : st.nextRef + 1 ≤ r := hr
      have hne : r ≠ st.nextRef := Nat.ne_of_gt hr1
      show heapSet st.heap st.nextRef _ r = _
      simp only [heapSet, if_neg hne]
      exact h.fresh r (Nat.le_of_lt hr1)
    · intro code r hr
      show r < st.nextRef + 1
      have hr1 : mapSet st.sessionManager env.roomCode st.nextRef code = some r := hr
      unfold mapSet at hr1
      split at hr1
      · cases hr1; exact Nat.lt_succ_self _
      · exact Nat.lt_succ_of_lt (h.table code r hr1)
    · intro c r hr
      show r < st.nextRef + 1
      have hr1 : mapSet st.connectionSessions conn (some st.nextRef) c = some (some r) := hr
      unfold mapSet at hr1
      split at hr1
      · cases hr1; exact Nat.lt_succ_self _
      · exact Nat.lt_succ_of_lt (h.bound c r hr1)
    · intro c r hr hb
      rw [roleOf_bind] at hb
      have hr1 : mapSet st.connectionSessions conn (some st.nextRef) c = some (some r) := hr
      show (heapSet st.heap st.nextRef _ r).player1.socket = some c ∧
        (heapSet st.heap st.nextRef _ r).player2.socket ≠ some c
      unfold mapSet at hr1
      by_cases hc : c = conn
      · rw [if_pos hc] at hr1
        cases hr1
        simp [heapSet, Player.new, hc]
      · rw [if_neg hc] at hr1 hb
        have hlt := h.bound c r hr1
        have hne : r ≠ st.nextRef := Nat.ne_of_lt hlt
        simp only [heapSet, if_neg hne]
        exact h.asPlayer1 c r hr1 hb
    · intro c r hr hb
      rw [roleOf_bind] at hb
      have hr1 : mapSet st.connectionSessions conn (some st.nextRef) c = some (some r) := hr
      show (heapSet st.heap st.nextRef _ r).player2.socket = some c ∧
        (heapSet st.heap st.nextRef _ r).state ≠ .WAITING_FOR_PLAYER ∧
        ((heapSet st.heap st.nextRef _ r).player1.socket = some c →
          (heapSet st.heap st.nextRef _ r).player1.shipsPlaced = false ∧
          (heapSet st.heap st.nextRef _ r).state = .PLACING_SHIPS)
      unfold mapSet at hr1
      by_cases hc : c = conn
      · rw [if_pos hc] at hb
        cases hb
      · rw [if_neg hc] at hr1 hb
        have hlt := h.bound c r hr1
        have hne : r ≠ st.nextRef := Nat.ne_of_lt hlt
        simp only [heapSet, if_neg hne]
        exact h.asPlayer2 c r hr1 hb
    · intro r
      show SessionOk (heapSet st.heap st.nextRef _ r)
      unfold heapSet
      split
      · exact ⟨fun _ => rfl, fun hs => by rcases hs with hs | hs <;> cases hs⟩
      · exact h.ok r
  · intro r
    show _ ≤ (heapSet st.heap st.nextRef _ r).state.rank
    unfold heapSet
    split
    · next hr =>
      rw [hr, h.fresh st.nextRef (le_refl _)]
      exact le_refl _
    · exact le_refl _

theorem joinSession_cases (st : Server) (code : String) (p : Player) (env : Env) :
    ((SessionManager.joinSession st code p env).1 = none ∧
      (SessionManager.joinSession st code p env).2 = st) ∨
    (∃ r, st.sessionManager code = some r ∧ (st.heap r).state = .WAITING_FOR_PLAYER ∧
      (SessionManager.joinSession st code p env).1 = some r ∧
      (SessionManager.joinSession st code p env).2 =
        st.store r ((st.heap r).join p env.now)) := by
  unfold SessionManager.joinSession
  cases h : st.sessionManager code with
  | none => exact Or.inl ⟨rfl, rfl⟩
  | some r =>
    by_cases hs : (st.heap r).state = .WAITING_FOR_PLAYER
    · right
      exact ⟨r, rfl, hs, by simp [hs], by simp [hs]⟩
    · left
      simp [hs]

theorem inv_join (st : Server) (conn : Conn) (env : Env) (r : SessionRef) (code : String)
    (h : Inv st) (ht : st.sessionManager code = some r)
    (hw : (st.heap r).state = .WAITING_FOR_PLAYER) :
    Inv ((st.store r ((st.heap r).join (Player.new (some conn) "player2") env.now)).bind
          conn (some r) "player2" false) ∧
    Mono st ((st.store r ((st.heap r).join (Player.new (some conn) "player2") env.now)).bind
          conn (some r) "player2" false) := by
  have hlt := h.table code r ht
  constructor
  · refine ⟨?_, ?_, ?_, ?_, ?_, ?_⟩
    · intro q hq
      have hq1 : st.nextRef ≤ q := hq
      have hne : q ≠ r := Nat.ne_of_gt (Nat.lt_of_lt_of_le hlt hq1)
      show heapSet st.heap r _ q = _
      simp only [heapSet, if_neg hne]
      exact h.fresh q hq1
    · exact h.table
    · intro c q hq
      have hq1 : mapSet st.connectionSessions conn (some r) c = some (some q) := hq
      show q < st.nextRef
      unfold mapSet at hq1
      split at hq1
      · cases hq1; exact hlt
      · exact h.bound c q hq1
    · intro c q hq hb
      rw [roleOf_bind] at hb
      have hq1 : mapSet st.connectionSessions conn (some r) c = some (some q) := hq
      show (heapSet st.heap r _ q).player1.socket = some c ∧
        (heapSet st.heap r _ q).player2.socket ≠ some c
      unfold mapSet at hq1
      by_cases hc : c = conn
      · rw [if_pos hc] at hb
        cases hb
      · rw [if_neg hc] at hq1 hb
        have old := h.asPlayer1 c q hq1 hb
        unfold heapSet
        split
        · next e =>
          subst e
          refine ⟨old.1, ?_⟩
          simp only [Player.new]
          intro e
          exact hc (Option.some.inj e).symm
        · exact old
    · intro c q hq hb
      rw [roleOf_bind] at hb
      have hq1 : mapSet st.connectionSessions conn (some r) c = some (some q) := hq
      show (heapSet st.heap r _ q).player2.socket = some c ∧
        (heapSet st.heap r _ q).state ≠ .WAITING_FOR_PLAYER ∧
        ((heapSet st.heap r _ q).player1.socket = some c →
          (heapSet st.heap r _ q).player1.shipsPlaced = false ∧
          (heapSet st.heap r _ q).state = .PLACING_SHIPS)
      unfold mapSet at hq1
      by_cases hc : c = conn
      · rw [if_pos hc] at hq1
        cases hq1
        subst hc
        simp only [heapSet, if_true, Player.new]
        exact ⟨rfl, fun e => (by cases e), fun _ => ⟨(h.ok r).1 hw, rfl⟩⟩
      · rw [if_neg hc] at hq1 hb
        have old := h.asPlayer2 c q hq1 hb
        unfold heapSet
        split
        · next e =>
          subst e
          exact absurd hw old.2.1
        · exact old
    · intro q
      show SessionOk (heapSet st.heap r _ q)
      unfold heapSet
      split
      · exact ⟨fun hs => (by cases hs), fun hs => (by rcases hs with hs | hs <;> cases hs)⟩
      · exact h.ok q
  · intro q
    show _ ≤ (heapSet st.heap r _ q).state.rank
    unfold heapSet
    split
    · next e =>
      subst e
      rw [hw]
      exact Nat.zero_le _
    · exact le_refl _

theorem inv_body (st : Server) (conn : Conn) (r : SessionRef) (s1 : GameSession)
    (h : Inv st) (hb : st.connectionSessions conn = some (some r))
    (hu : SessionUpdate (st.heap r) s1 (roleOf st conn)) :
    Inv (st.store r s1) ∧ Mono st (st.store r s1) := by
  have hlt := h.bound conn r hb
  constructor
  · refine ⟨?_, h.table, h.bound, ?_, ?_, ?_⟩
    · intro q hq
      have hq1 : st.nextRef ≤ q := hq
      have hne : q ≠ r := Nat.ne_of_gt (Nat.lt_of_lt_of_le hlt hq1)
      show heapSet st.heap r _ q = _
      simp only [heapSet, if_neg hne]
      exact h.fresh q hq1
    · intro c q hq hc
      have hc1 : roleOf st c = true := hc
      have hq1 : st.connectionSessions c = some (some q) := hq
      have old := h.asPlayer1 c q hq1 hc1
      show (heapSet st.heap r s1 q).player1.socket = some c ∧
        (heapSet st.heap r s1 q).player2.socket ≠ some c
      unfold heapSet
      split
      · next e =>
        subst e
        rw [hu.socket1, hu.socket2]
        exact old
      · exact old
    · intro c q hq hc
      have hc1 : roleOf st c = false := hc
      have hq1 : st.connectionSessions c = some (some q) := hq
      have old := h.asPlayer2 c q hq1 hc1
      show (heapSet st.heap r s1 q).player2.socket = some c ∧
        (heapSet st.heap r s1 q).state ≠ .WAITING_FOR_PLAYER ∧
        ((heapSet st.heap r s1 q).player1.socket = some c →
          (heapSet st.heap r s1 q).player1.shipsPlaced = false ∧
          (heapSet st.heap r s1 q).state = .PLACING_SHIPS)
      unfold heapSet
      split
      · next e =>
        subst e
        rw [hu.socket1, hu.socket2]
        refine ⟨old.1, ?_, ?_⟩
        · intro e
          have hr := hu.rank
          rw [e] at hr
          have : (st.heap q).state = .WAITING_FOR_PLAYER := by
            cases hs : (st.heap q).state <;> rw [hs] at hr <;> first | rfl | cases hr
          exact old.2.1 this
        · intro hp
          have o := old.2.2 hp
          cases hrole : roleOf st conn with
          | false => exact (hu.quiet hrole o.2 o.1).symm
          | true =>
            have := (h.asPlayer1 conn q hb hrole).1
            rw [hp] at this
            have hcc : c = conn := Option.some.inj this
            rw [hcc, hrole] at hc1
            cases hc1
      · exact old
    · intro q
      show SessionOk (heapSet st.heap r s1 q)
      unfold heapSet
      split
      · next e =>
        subst e
        exact hu.ok (h.ok q)
      · exact h.ok q
  · intro q
    show _ ≤ (heapSet st.heap r s1 q).state.rank
    unfold heapSet
    split
    · next e =>
      subst e
      exact hu.rank
    · exact le_refl _

theorem roleOf_erase (st st1 : Server) (conn c : Conn) (hc : c ≠ conn)
    (h : st1.connectionIsPlayer1 = mapErase st.connectionIsPlayer1 conn) :
    roleOf st1 c = roleOf st c := by
  unfold roleOf
  rw [h]
  simp [mapErase, hc]

theorem inv_close (st : Server) (conn : Conn) (h : Inv st) :
    Inv (handleWebSocketClose st conn).1 ∧ Mono st (handleWebSocketClose st conn).1 := by
  cases hb : st.connectionSessions conn with
  | none =>
    rw [close_unbound st conn hb]
    exact ⟨h, mono_refl st⟩
  | some cur =>
    cases cur with
    | none =>
      have e : handleWebSocketClose st conn =
          ({ st with connectionSessions := mapErase st.connectionSessions conn,
                     connectionPlayerIds := mapErase st.connectionPlayerIds conn,
                     connectionIsPlayer1 := mapErase st.connectionIsPlayer1 conn },
           [Ev.lockConn, Ev.unlockConn]) := by
        unfold handleWebSocketClose
        rw [hb]
      rw [e]
      refine ⟨⟨h.fresh, h.table, ?_, ?_, ?_, h.ok⟩, mono_refl st⟩
      · intro c q hq
        have hq1 : mapErase st.connectionSessions conn c = some (some q) := hq
        unfold mapErase at hq1
        split at hq1
        · cases hq1
        · exact h.bound c q hq1
      · intro c q hq hr
        have hq1 : mapErase st.connectionSessions conn c = some (some q) := hq
        unfold mapErase at hq1
        split at hq1
        · cases hq1
        · next hc =>
          rw [roleOf_erase st _ conn c hc rfl] at hr
          exact h.asPlayer1 c q hq1 hr
      · intro c q hq hr
        have hq1 : mapErase st.connectionSessions conn c = some (some q) := hq
        unfold mapErase at hq1
        split at hq1
        · cases hq1
        · next hc =>
          rw [roleOf_erase st _ conn c hc rfl] at hr
          exact h.asPlayer2 c q hq1 hr
    | some r =>
      rw [close_bound st conn r hb]
      have hlt := h.bound conn r hb
      obtain ⟨u1, u2, u3, _, _, _⟩ := unplug_facts (st.heap r) (roleOf st conn)
      constructor
      · refine ⟨?_, h.table, ?_, ?_, ?_, ?_⟩
        · intro q hq
          have hq1 : st.nextRef ≤ q := hq
          have hne : q ≠ r := Nat.ne_of_gt (Nat.lt_of_lt_of_le hlt hq1)
          show heapSet st.heap r _ q = _
          simp only [heapSet, if_neg hne]
          exact h.fresh q hq1
        · intro c q hq
          have hq1 : mapErase st.connectionSessions conn c = some (some q) := hq
          unfold mapErase at hq1
          split at hq1
          · cases hq1
          · exact h.bound c q hq1
        · intro c q hq hr
          have hq1 : mapErase st.connectionSessions conn c = some (some q) := hq
          show (heapSet st.heap r _ q).player1.socket = some c ∧
            (heapSet st.heap r _ q).player2.socket ≠ some c
          unfold mapErase at hq1
          split at hq1
          · cases hq1
          · next hc =>
            rw [roleOf_erase st _ conn c hc rfl] at hr
            have old := h.asPlayer1 c q hq1 hr
            unfold heapSet
            split
            · next e =>
              subst e
              cases hrole : roleOf st conn with
              | true =>
                have := (h.asPlayer1 conn q hb hrole).1
                rw [old.1] at this
                exact absurd (Option.some.inj this) hc
              | false =>
                simp only [GameSession.unplug]
                exact ⟨old.1, fun e => by cases e⟩
            · exact old
        · intro c q hq hr
          have hq1 : mapErase st.connectionSessions conn c = some (some q) := hq
          show (heapSet st.heap r _ q).player2.socket = some c ∧
            (heapSet st.heap r _ q).state ≠ .WAITING_FOR_PLAYER ∧
            ((heapSet st.heap r _ q).player1.socket = some c →
              (heapSet st.heap r _ q).player1.shipsPlaced = false ∧
              (heapSet st.heap r _ q).state = .PLACING_SHIPS)
          unfold mapErase at hq1
          split at hq1
          · cases hq1
          · next hc =>
            rw [roleOf_erase st _ conn c hc rfl] at hr
            have old := h.asPlayer2 c q hq1 hr
            unfold heapSet
            split
            · next e =>
              subst e
              cases hrole : roleOf st conn with
              | false =>
                have := (h.asPlayer2 conn q hb hrole).1
                rw [old.1] at this
                exact absurd (Option.some.inj this) hc
              | true =>
                simp only [GameSession.unplug]
                exact ⟨old.1, old.2.1, fun e => by cases e⟩
            · exact old
        · intro q
          show SessionOk (heapSet st.heap r _ q)
          unfold heapSet
          split
          · next e =>
            subst e
            have := h.ok q
            cases hrole : roleOf st conn <;> simpa [SessionOk, GameSession.unplug] using this
          · exact h.ok q
      · intro q
        show _ ≤ (heapSet st.heap r _ q).state.rank
        unfold heapSet
        split
        · next e =>
          subst e
          rw [u3]
        · exact le_refl _

theorem mono_of_heap (st st1 st2 : Server) (h : st1.heap = st.heap) (hm : Mono st1 st2) :
    Mono st st2 := by
  intro r
  have := hm r
  rw [h] at this
  exact this

theorem inv_message (st : Server) (conn : Conn) (data : Option Json) (is_binary : Bool)
    (env : Env) (h : Inv st) :
    Inv (handleWebSocketMessage st conn data is_binary env).1 ∧
    Mono st (handleWebSocketMessage st conn data is_binary env).1 := by
  have h0 := inv_lookup st conn h
  obtain ⟨l1, _, _, _, l5, l6⟩ := lookup_facts st conn
  have keep : Inv (lookup st conn).2.2 ∧ Mono st (lookup st conn).2.2 :=
    ⟨h0, mono_of_heap st _ _ l1 (mono_refl _)⟩
  unfold handleWebSocketMessage
  cases is_binary with
  | true => exact ⟨h, mono_refl st⟩
  | false =>
    simp only [Bool.false_eq_true, if_false]
    cases data with
    | none => exact ⟨h, mono_refl st⟩
    | some json =>
      dsimp only
      cases ht : (json.get "type").bind Json.s with
      | error w => exact ⟨h, mono_refl st⟩
      | ok type =>
        dsimp only
        by_cases hping : type = "PING"
        · simp only [hping, if_true]
          exact ⟨h, mono_refl st⟩
        · simp only [hping, if_false]
          by_cases hcreate : type = "CREATE_SESSION"
          · simp only [hcreate, if_true]
            obtain ⟨i, m⟩ := inv_create (lookup st conn).2.2 conn env h0
            exact ⟨i, mono_of_heap st _ _ l1 m⟩
          · simp only [hcreate, if_false]
            by_cases hjoin : type = "JOIN_SESSION"
            · simp only [hjoin, if_true]
              cases hhas : json.has "roomCode" with
              | false => exact keep
              | true =>
                simp only [Bool.not_true, Bool.false_eq_true, if_false]
                cases hcode : (json.get "roomCode").bind Json.s with
                | error w => exact keep
                | ok roomCode =>
                  dsimp only
                  rcases joinSession_cases (lookup st conn).2.2 roomCode
                    (Player.new (some conn) "player2") env with ⟨j1, j2⟩ | ⟨r, j1, j2, j3, j4⟩
                  · simp only [j1, j2]
                    exact keep
                  · simp only [j3, j4]
                    obtain ⟨i, m⟩ := inv_join (lookup st conn).2.2 conn env r roomCode h0 j1 j2
                    exact ⟨i, mono_of_heap st _ _ l1 m⟩
            · simp only [hjoin, if_false]
              cases hcur : (lookup st conn).1 with
              | none => exact keep
              | some r =>
                dsimp only
                obtain ⟨b1, b2⟩ := l6 r hcur
                have hb : (lookup st conn).2.2.connectionSessions conn = some (some r) := by
                  rw [lookup_facts st conn |>.2.2.2.1]; exact b1
                have hrole : (lookup st conn).2.1 = roleOf (lookup st conn).2.2 conn := by
                  rw [b2, l5]
                rw [hrole]
                have upd : SessionUpdate ((lookup st conn).2.2.heap r)
                    (if type = "PLACE_SHIPS" then
                      placeShips ((lookup st conn).2.2.heap r) conn
                        (roleOf (lookup st conn).2.2 conn) json
                    else if type = "SHOT" then
                      shot ((lookup st conn).2.2.heap r) conn
                        (roleOf (lookup st conn).2.2 conn) json env.now
                    else ⟨(lookup st conn).2.2.heap r,
                      [Ev.send conn (.error ("Неизвестный тип сообщения: " ++ type))],
                      .ret⟩).session (roleOf (lookup st conn).2.2 conn) := by
                  split
                  · exact placeShips_update _ conn _ json
                  · split
                    · exact shot_update _ conn _ json env.now
                    · exact sessionUpdate_refl _ _
                obtain ⟨i, m⟩ := inv_body (lookup st conn).2.2 conn r _ h0 hb upd
                exact ⟨i, mono_of_heap st _ _ l1 m⟩

theorem inv_step (st : Server) (e : Event) (h : Inv st) :
    Inv (step st e).1 ∧ Mono st (step st e).1 := by
  cases e with
  | message conn data is_binary env => exact inv_message st conn data is_binary env h
  | close conn => exact inv_close st conn h

theorem reachable_inv (st : Server) (h : Reachable st) : Inv st := by
  induction h with
  | init => exact inv_init
  | next st e _ ih => exact (inv_step st e ih).1

theorem reachable_run (st : Server) (evs : List Event) (h : Reachable st) :
    Reachable (run st evs).1 := by
  induction evs generalizing st with
  | nil => exact h
  | cons e es ih => exact ih (step st e).1 (Reachable.next st e h)

theorem entries_after (r : SessionRef) (st : Server) (evs : List Event) (h : Inv st)
    (hr : 2 ≤ (st.heap r).state.rank) : entries r st evs = 0 := by
  induction evs generalizing st with
  | nil => rfl
  | cons e es ih =>
    obtain ⟨i, m⟩ := inv_step st e h
    have hm := m r
    have h2 : 2 ≤ ((step st e).1.heap r).state.rank := le_trans hr hm
    unfold entries
    rw [ih (step st e).1 i h2]
    have : ¬ ((st.heap r).state ≠ .IN_GAME ∧ ((step st e).1.heap r).state = .IN_GAME) := by
      intro ⟨a, b⟩
      rw [b] at hm
      cases hs : (st.heap r).state <;> rw [hs] at hr hm a <;>
        simp [GameState.rank] at hr hm a
    rw [if_neg this]

theorem entries_le (r : SessionRef) (st : Server) (evs : List Event) (h : Inv st) :
    entries r st evs ≤ 1 := by
  induction evs generalizing st with
  | nil => exact Nat.zero_le _
  | cons e es ih =>
    obtain ⟨i, m⟩ := inv_step st e h
    unfold entries
    by_cases hc : (st.heap r).state ≠ .IN_GAME ∧ ((step st e).1.heap r).state = .IN_GAME
    · rw [if_pos hc, entries_after r (step st e).1 es i (by rw [hc.2]; exact le_refl _)]
    · rw [if_neg hc, Nat.zero_add]
      exact ih (step st e).1 i

/-- C3: in every state reachable from process start: a session that is
`IN_GAME` has both `shipsPlaced` flags set; right after an accepted `PLACE_SHIPS`
(one answered with ships-placed) the session is `IN_GAME` exactly when both flags
are set; along every further sequence of callbacks a session enters `IN_GAME` at
most once; and a `PLACE_SHIPS` for a session that is `IN_GAME` or `FINISHED` is
not accepted and changes nothing. -/
theorem placement_gating (st : Server) (h : Reachable st) :
    (∀ r, (st.heap r).state = .IN_GAME →
      (st.heap r).player1.shipsPlaced = true ∧ (st.heap r).player2.shipsPlaced = true) ∧
    (∀ conn json env r, (json.get "type").bind Json.s = .ok "PLACE_SHIPS" →
      st.connectionSessions conn = some (some r) →
      (conn, Msg.shipsPlaced) ∈ sends (handleWebSocketMessage st conn (some json) false env).2 →
      (((handleWebSocketMessage st conn (some json) false env).1.heap r).state = .IN_GAME ↔
        ((handleWebSocketMessage st conn (some json) false env).1.heap r).player1.shipsPlaced = true ∧
        ((handleWebSocketMessage st conn (some json) false env).1.heap r).player2.shipsPlaced
          = true)) ∧
    (∀ r evs, entries r st evs ≤ 1) ∧
    (∀ conn json env r, (json.get "type").bind Json.s = .ok "PLACE_SHIPS" →
      st.connectionSessions conn = some (some r) →
      (st.heap r).state = .IN_GAME ∨ (st.heap r).state = .FINISHED →
      (conn, Msg.shipsPlaced) ∉ sends (handleWebSocketMessage st conn (some json) false env).2 ∧
      (handleWebSocketMessage st conn (some json) false env).1.heap = st.heap) := by
  have hi := reachable_inv st h
  refine ⟨fun r hs => (hi.ok r).2 (Or.inl hs), ?_, fun r evs => entries_le r st evs hi, ?_⟩
  · intro conn json env r ht hb hacc
    rw [handle_placeShips st conn json env r ht hb] at hacc ⊢
    rcases placeShips_cases (st.heap r) conn (roleOf st conn) json with hr | ⟨hs, _, ships, he⟩
    · obtain ⟨⟨m, e1⟩, _⟩ := rejected_events _ _ conn r hr
      rw [e1] at hacc
      simp at hacc
    · show (heapSet st.heap r _ r).state = .IN_GAME ↔
        (heapSet st.heap r _ r).player1.shipsPlaced = true ∧
        (heapSet st.heap r _ r).player2.shipsPlaced = true
      simp only [heapSet, if_true]
      rw [he, storeShips_session]
      obtain ⟨_, _, _, p4, _⟩ := place_slot (st.heap r) (roleOf st conn) ships
      split
      · next hboth => exact ⟨fun _ => hboth, fun _ => rfl⟩
      · next hnot =>
        constructor
        · intro e
          rw [p4, hs] at e
          cases e
        · intro hboth
          exact absurd hboth hnot
  · intro conn json env r ht hb hs
    have hn : ¬ placeAllowed (st.heap r) (roleOf st conn) json := by
      intro hp
      rcases hs with hs | hs <;> rw [hp.1] at hs <;> cases hs
    obtain ⟨⟨m, e1⟩, _, e3⟩ := placeShips_turned_away st conn json env r ht hb hn
    refine ⟨?_, e3⟩
    rw [e1]
    simp

/-- Witness of C3: the state in which both players of room ABC123 are ready. -/
theorem placement_gating_witness :
    Reachable (run Server.init ready).1 ∧
    (((run Server.init ready).1.heap 0).player1.shipsPlaced = true ∧
      ((run Server.init ready).1.heap 0).player2.shipsPlaced = true) ∧
    entries 0 Server.init ready ≤ 1 :=
  ⟨reachable_run Server.init ready Reachable.init,
   (placement_gating (run Server.init ready).1
      (reachable_run Server.init ready Reachable.init)).1 0 (by decide),
   (placement_gating Server.init Reachable.init).2.2.1 0 ready⟩

/-! ## The winner named in game-over -/

theorem gameOvers_append (a b : List (Conn × Msg)) :
    gameOvers (a ++ b) = gameOvers a ++ gameOvers b := by
  induction a with
  | nil => rfl
  | cons p rest ih =>
    obtain ⟨c, m⟩ := p
    cases m <;> simp [gameOvers, ih]

theorem role_of_shooter (st : Server) (conn : Conn) (r : SessionRef) (h : Inv st)
    (hb : st.connectionSessions conn = some (some r))
    (hs : (st.heap r).state = .IN_GAME)
    (ht : (st.heap r).getCurrentPlayer.socket = some conn) :
    roleOf st conn = (st.heap r).turnIsPlayer1 := by
  unfold GameSession.getCurrentPlayer at ht
  unfold GameSession.turnIsPlayer1
  cases hrole : roleOf st conn with
  | true =>
    obtain ⟨_, a2⟩ := h.asPlayer1 conn r hb hrole
    by_cases hc : (st.heap r).currentTurn = 1
    · simp [hc]
    · rw [if_neg hc] at ht
      exact absurd ht a2
  | false =>
    obtain ⟨_, _, a3⟩ := h.asPlayer2 conn r hb hrole
    by_cases hc : (st.heap r).currentTurn = 1
    · rw [if_pos hc] at ht
      have := (a3 ht).2
      rw [hs] at this
      cases this
    · simp [hc]

theorem fire_gameOvers (s : GameSession) (conn : Conn) (b : Bool) (x y : Int) (now : Nat) :
    gameOvers (sends (fire s conn b x y now).events) =
      if (GameEngine.processShot s x y).1 = .WIN then
        gameOversOf (fire s conn b x y now).session (roleName b)
      else [] := by
  unfold fire
  by_cases h : (GameEngine.processShot s x y).1 = .WIN
  · simp only [h, if_true]
    cases h1 : (GameEngine.processShot s x y).2.player1.socket with
    | none =>
      simp only [gameOversOf, h1]
      cases (if s.currentTurn = 1 then (GameEngine.processShot s x y).2.player2
          else (GameEngine.processShot s x y).2.player1).socket <;>
        simp [sends, sendIf, gameOvers]
    | some p1 =>
      simp only [gameOversOf, GameSession.updateActivity, h1]
      cases h2 : (GameEngine.processShot s x y).2.player2.socket <;>
      cases (if s.currentTurn = 1 then (GameEngine.processShot s x y).2.player2
          else (GameEngine.processShot s x y).2.player1).socket <;>
        simp [sends, sendIf, gameOvers, roleName]
  · simp only [h, if_false]
    cases (GameEngine.processShot s x y).2.getCurrentPlayer.socket <;>
    cases (if s.currentTurn = 1 then (GameEngine.processShot s x y).2.player2
          else (GameEngine.processShot s x y).2.player1).socket <;>
      simp [sends, sendIf, gameOvers, GameSession.updateActivity]

theorem fire_state (s : GameSession) (conn : Conn) (b : Bool) (x y : Int) (now : Nat) :
    (fire s conn b x y now).session.state = (GameEngine.processShot s x y).2.state := by
  rcases fire_session s conn b x y now with h | h
  · rw [h]
  · rw [h]
    rfl

/-- C8: in every state reachable from process start, when a `SHOT` of a bound
connection is accepted (it reaches `processShot`) and wins (the session becomes
`FINISHED`): the connection is the socket of the player designated by
`currentTurn`, the role the handler reads for it is that player's role, and the
game-over messages sent are exactly: through player1's socket, the winner named
by the shooter's role with player1's statistics, then through player2's socket
(when not null) the same winner with player2's statistics. -/
theorem winner_is_shooter (st : Server) (h : Reachable st) (conn : Conn) (json : Json)
    (env : Env) (r : SessionRef)
    (ht : (json.get "type").bind Json.s = .ok "SHOT")
    (hb : st.connectionSessions conn = some (some r))
    (hacc : processed (handleWebSocketMessage st conn (some json) false env).2 = true)
    (hwin : ((handleWebSocketMessage st conn (some json) false env).1.heap r).state = .FINISHED) :
    (st.heap r).getCurrentPlayer.socket = some conn ∧
    roleOf st conn = (st.heap r).turnIsPlayer1 ∧
    gameOvers (sends (handleWebSocketMessage st conn (some json) false env).2) =
      gameOversOf ((handleWebSocketMessage st conn (some json) false env).1.heap r)
        (roleName (st.heap r).turnIsPlayer1) := by
  have hi := reachable_inv st h
  rw [handle_shot st conn json env r ht hb] at hacc hwin ⊢
  rcases shot_cases (st.heap r) conn (roleOf st conn) json env.now with hr | ⟨hs, hturn, x, y, he⟩
  · obtain ⟨_, _, e3⟩ := rejected_events _ _ conn r hr
    rw [e3] at hacc
    cases hacc
  · have hrole := role_of_shooter st conn r hi hb hs hturn
    refine ⟨hturn, hrole, ?_⟩
    have hw : ((fire (st.heap r) conn (roleOf st conn) x y env.now).session).state = .FINISHED := by
      have : (heapSet st.heap r (shot (st.heap r) conn (roleOf st conn) json env.now).session r).state
          = .FINISHED := hwin
      simp only [heapSet, if_true] at this
      rw [he] at this
      exact this
    have hres : (GameEngine.processShot (st.heap r) x y).1 = .WIN := by
      rw [fire_state, (processShot_effect (st.heap r) x y).2.2.2.1] at hw
      by_contra hne
      rw [if_neg hne, hs] at hw
      cases hw
    show gameOvers (sends _) = gameOversOf (heapSet st.heap r _ r) _
    simp only [heapSet, if_true]
    rw [he, sends_append, sends_append, gameOvers_append, gameOvers_append, fire_gameOvers,
      if_pos hres, ← hrole]
    have hl : sends (leave conn r (fire (st.heap r) conn (roleOf st conn) x y env.now).exit) = [] := by
      rcases fire_exit (st.heap r) conn (roleOf st conn) x y env.now with h | h <;> rw [h] <;> rfl
    rw [hl]
    simp [sends, gameOvers]

/-- Witness of C8: the end-to-end scenario of the specification. Player1 sinks
player2's only ship; both receive game-over naming player1, each with its own
statistics. -/
theorem winner_is_shooter_witness :
    ((run Server.init ready).1.heap 0).getCurrentPlayer.socket = some 1 ∧
    roleOf (run Server.init ready).1 1 = ((run Server.init ready).1.heap 0).turnIsPlayer1 ∧
    gameOvers (sends (handleWebSocketMessage (run Server.init ready).1 1
        (some (.obj [("type", .str "SHOT"), ("x", .num 5), ("y", .num 5)])) false (envAt 4)).2)
      = [(1, .gameOver "player1" ⟨1, 1, 0⟩), (2, .gameOver "player1" ⟨0, 0, 0⟩)] :=
  (winner_is_shooter (run Server.init ready).1 (reachable_run Server.init ready Reachable.init) 1
    (.obj [("type", .str "SHOT"), ("x", .num 5), ("y", .num 5)]) (envAt 4) 0
    rfl (by decide) (by decide) (by decide)).imp id (fun h => h.imp id (fun e => e.trans (by decide)))

end Battleship
